import Mathlib

/-!
Shallow embedding of the `ecomm_processor` core (pipeline engine, steps,
field transformers, processing context) from `src/backend/ecomm_processor`.

Modelling conventions:
* A pandas cell is a `Value`: `null` stands for both Python `None` and
  float NaN (the code treats them alike through `pd.isna`); strings,
  Python ints and Python floats (modelled as exact rationals) are separate
  constructors because `str()` renders them differently.
* A DataFrame is a `Table`: an ordered column-name list plus rows, each row
  carrying its integer index label (pandas row label) and an ordered
  association list from column name to cell.  Row labels survive filtering
  and validation (pandas keeps labels) and are reset by aggregation.
* In-place mutation of a frame (the aggregate step's numeric coercion,
  the engine's null-fill of missing output columns) is modelled by
  returning the mutated table state explicitly next to the step's result.
* Wall-clock times, the progress callback, `source_file` bookkeeping, and
  step durations are dropped: they are I/O concerns outside the modelled
  state.  External library behaviour (Python `str`/`float`, pandas
  `to_numeric`, date parsing) is modelled by executable functions that
  reproduce it on the inputs the code feeds them, as noted at each site.
-/

namespace Ecomm

/-- The apostrophe character, used to rebuild the exact quoted error
message strings of the source. -/
def sq : String := String.mk [Char.ofNat 39]

/-- Left brace character (formula placeholder delimiter). -/
def lbrace : Char := Char.ofNat 123

/-- Right brace character (formula placeholder delimiter). -/
def rbrace : Char := Char.ofNat 125

/-- Exact rational with a positive denominator, kept in lowest terms by
the smart constructor; models Python floats exactly (shortest-repr float
printing aside, nothing the code does distinguishes the two; the model
is built on Int/Nat primitives so that every computation reduces in the
kernel). -/
structure Q where
  num : Int
  den : Nat
deriving Repr, DecidableEq

/-- Normalize a fraction to lowest terms with positive denominator. -/
def Q.mk' (n : Int) (d : Nat) : Q :=
  if d = 0 then ⟨0, 1⟩
  else
    let g := Int.gcd n d
    if g = 0 then ⟨0, 1⟩
    else ⟨n / g, d / g⟩

/-- Integer as a rational. -/
def Q.ofInt (n : Int) : Q := ⟨n, 1⟩

/-- Rational addition. -/
def Q.add (a b : Q) : Q :=
  Q.mk' (a.num * b.den + b.num * a.den) (a.den * b.den)

/-- Rational subtraction. -/
def Q.sub (a b : Q) : Q :=
  Q.mk' (a.num * b.den - b.num * a.den) (a.den * b.den)

/-- Rational multiplication. -/
def Q.mul (a b : Q) : Q := Q.mk' (a.num * b.num) (a.den * b.den)

/-- Rational negation. -/
def Q.neg (a : Q) : Q := ⟨-a.num, a.den⟩

/-- Rational division (callers guard the zero divisor). -/
def Q.div (a b : Q) : Q :=
  let n := a.num * (b.den : Int)
  let d := (a.den : Int) * b.num
  if d = 0 then ⟨0, 1⟩
  else if d < 0 then Q.mk' (-n) (-d).toNat
  else Q.mk' n d.toNat

/-- Rational order (denominators are positive). -/
def Q.leB (a b : Q) : Bool := a.num * (b.den : Int) ≤ b.num * (a.den : Int)

/-- Strict rational order. -/
def Q.ltB (a b : Q) : Bool := a.num * (b.den : Int) < b.num * (a.den : Int)

/-- Whether the rational is zero (canonical form). -/
def Q.isZero (a : Q) : Bool := a.num = 0

/-- A cell value of the tabular structure.  `null` models both Python
`None` and float NaN; `intv` a Python int; `fl` a Python float (kept
exact as a rational); `str` a Python str. -/
inductive Value where
  | null
  | str (s : String)
  | intv (n : Int)
  | fl (q : Q)
deriving Repr, DecidableEq

/-- A row: ordered association list from column name to cell, as a pandas
Series obtained from `df.iterrows()` (and, in the transform step, grown by
computed output fields). -/
abbrev Row := List (String × Value)

/-- First binding of a column in a row, `none` when the key is absent. -/
def rowGet? (r : Row) (c : String) : Option Value :=
  match r with
  | [] => none
  | (k, v) :: rest => if k = c then some v else rowGet? rest c

/-- Series item assignment: overwrite the first binding of the key, or
append a new binding at the end (pandas `row[key] = v`). -/
def rowSet (r : Row) (c : String) (v : Value) : Row :=
  match r with
  | [] => [(c, v)]
  | (k, w) :: rest => if k = c then (c, v) :: rest else (k, w) :: rowSet rest c v

/-- Cell read defaulting to NaN, the value a pandas row yields for a column
of its frame. -/
def cellGet (r : Row) (c : String) : Value :=
  (rowGet? r c).getD .null

/-- A DataFrame: ordered column names and labelled rows. -/
structure Table where
  cols : List String
  rows : List (Nat × Row)
deriving Repr, DecidableEq

/-- `df.copy()`: a deep copy.  The model is pure, so the copy is the same
value; its role is that every later in-place write is threaded on the
copy's state, never on the original's. -/
def tableCopy (t : Table) : Table := t

/-- Digits of a numeral to a natural number. -/
def digitsToNat (ds : List Char) : Nat :=
  ds.foldl (fun a c => a * 10 + (c.toNat - 48)) 0

/-!  String helpers.  The model re-implements the Python string
operations it needs over character lists (the core library versions are
written against byte iterators, which the proof kernel cannot evaluate;
these versions agree with them on the inputs the code feeds them and
reduce definitionally).  -/

/-- Whether the first list opens the second one. -/
def leadsWith : List Char → List Char → Bool
  | [], _ => true
  | _ :: _, [] => false
  | p :: ps, c :: cs => p = c && leadsWith ps cs

/-- Whether `nd` occurs contiguously inside the second list. -/
def containsGo (nd : List Char) : List Char → Bool
  | [] => leadsWith nd []
  | c :: cs => leadsWith nd (c :: cs) || containsGo nd cs

/-- Python `"sub" in s` substring test. -/
def strContains (hay needle : String) : Bool :=
  containsGo needle.toList hay.toList

/-- One-character string. -/
def strOfChar (c : Char) : String := String.mk [c]

/-- Python `s.strip()`: whitespace removed from both ends. -/
def sTrim (s : String) : String :=
  String.mk (((s.toList.dropWhile Char.isWhitespace).reverse.dropWhile
    Char.isWhitespace).reverse)

/-- Python `s.upper()` (ASCII, as the data uses). -/
def sToUpper (s : String) : String := String.mk (s.toList.map Char.toUpper)

/-- Python `s.lower()`. -/
def sToLower (s : String) : String := String.mk (s.toList.map Char.toLower)

/-- Python `s.startswith(p)`. -/
def sStartsWith (s p : String) : Bool := leadsWith p.toList s.toList

/-- Python `s.endswith(p)`. -/
def sEndsWith (s p : String) : Bool := leadsWith p.toList.reverse s.toList.reverse

/-- First `n` characters. -/
def sTake (s : String) (n : Nat) : String := String.mk (s.toList.take n)

/-- All but the first `n` characters. -/
def sDrop (s : String) (n : Nat) : String := String.mk (s.toList.drop n)

/-- Character count. -/
def sLength (s : String) : Nat := s.toList.length

/-- Last `n` characters of a string (`s[-n:]`). -/
def takeLast (s : String) (n : Nat) : String :=
  sDrop s (sLength s - n)

/-- `str.replace` worklist: every non-overlapping occurrence of the
(nonempty) pattern replaced, scanning left to right. -/
def sReplaceL (pat repl : List Char) : Nat → List Char → List Char
  | 0, cs => cs
  | _, [] => []
  | fuel+1, c :: cs =>
    if pat ≠ [] ∧ leadsWith pat (c :: cs) then
      repl ++ sReplaceL pat repl fuel ((c :: cs).drop pat.length)
    else c :: sReplaceL pat repl fuel cs

/-- Python `s.replace(pat, repl)` for the nonempty patterns the code
uses. -/
def sReplace (s pat repl : String) : String :=
  String.mk (sReplaceL pat.toList repl.toList s.toList.length s.toList)

/-- `str.split` worklist (separator nonempty, as Python requires). -/
def sSplitGo (sep : List Char) : Nat → List Char → List Char → List String
  | _, acc, [] => [String.mk acc.reverse]
  | 0, acc, cs => [String.mk (acc.reverse ++ cs)]
  | fuel+1, acc, c :: cs =>
    if sep ≠ [] ∧ leadsWith sep (c :: cs) then
      String.mk acc.reverse :: sSplitGo sep fuel [] ((c :: cs).drop sep.length)
    else sSplitGo sep fuel (c :: acc) cs

/-- Python `s.split(sep)`. -/
def sSplitOn (s sep : String) : List String :=
  sSplitGo sep.toList s.toList.length [] s.toList

/-- Python `sep.join(parts)`. -/
def sIntercalate (sep : String) : List String → String
  | [] => ""
  | [x] => x
  | x :: rest => x ++ sep ++ sIntercalate sep rest

/-- Lexicographic character-list order. -/
def listLtCh : List Char → List Char → Bool
  | [], [] => false
  | [], _ :: _ => true
  | _ :: _, [] => false
  | a :: as_, b :: bs => a < b || (a = b && listLtCh as_ bs)

/-- Python `s < t` on strings. -/
def strLtB (a b : String) : Bool := listLtCh a.toList b.toList

/-- Python `float(s)` on the strings the code feeds it: optional sign,
integer digits, optional fractional digits (exponents and inf/nan
spellings are outside the inputs exercised and parse to failure). -/
def parseQ? (s : String) : Option Q :=
  let cs := (sTrim s).toList
  let signed : Int × List Char :=
    match cs with
    | '-' :: r => (-1, r)
    | '+' :: r => (1, r)
    | _ => (1, cs)
  let sign := signed.1
  let cs := signed.2
  let intPart := cs.takeWhile (fun c => c.isDigit)
  let rest := cs.dropWhile (fun c => c.isDigit)
  match rest with
  | [] =>
    if intPart = [] then none
    else some (Q.ofInt (sign * digitsToNat intPart))
  | '.' :: frac =>
    let fd := frac.takeWhile (fun c => c.isDigit)
    if frac.dropWhile (fun c => c.isDigit) ≠ [] then none
    else if intPart = [] ∧ fd = [] then none
    else
      some (Q.mk'
        (sign * (digitsToNat intPart * 10 ^ fd.length + digitsToNat fd))
        (10 ^ fd.length))
  | _ => none

/-- Decimal rendering of a rational that arose as a Python float
(`str(x)` for floats: always shows a decimal point; the exact-rational
model prints the exact decimal expansion where one exists). -/
def qDecimalRepr (q : Q) : String :=
  if q.den = 1 then toString q.num ++ ".0"
  else
    match (List.range 31).findSome? (fun k =>
        if 0 < k ∧ (q.num * ((10 ^ k : Nat) : Int)) % (q.den : Int) = 0 then
          some (k, q.num * ((10 ^ k : Nat) : Int) / (q.den : Int))
        else none) with
    | some (k, n) =>
      let sgn := if n < 0 then "-" else ""
      let digs := (toString n.natAbs).toList
      let digs :=
        if digs.length ≤ k then List.replicate (k + 1 - digs.length) '0' ++ digs
        else digs
      sgn ++ String.mk (digs.take (digs.length - k)) ++ "." ++
        String.mk (digs.drop (digs.length - k))
    | none => toString q.num ++ "/" ++ toString q.den

/-- Python `str(v)` on a cell.  NaN renders as "nan" (the NaN/None merge
makes `None` also render "nan"; nothing the claims touch distinguishes
the two renderings). -/
def pyStr (v : Value) : String :=
  match v with
  | .null => "nan"
  | .str s => s
  | .intv n => toString n
  | .fl q => qDecimalRepr q

/-- Python `float(v)`; `none` models the `TypeError`/`ValueError` raise. -/
def pyFloat? (v : Value) : Option Q :=
  match v with
  | .null => none
  | .str s => parseQ? s
  | .intv n => some (Q.ofInt n)
  | .fl q => some q

/-- `str(float(v))`: the float conversion then the float string form;
`none` models the raise.  `float(nan)` is nan, rendered "nan". -/
def floatStr? (v : Value) : Option String :=
  match v with
  | .null => some "nan"
  | .str s => (parseQ? s).map qDecimalRepr
  | .intv n => some (toString n ++ ".0")
  | .fl q => some (qDecimalRepr q)

/-- `pd.to_numeric(v, errors="coerce")` on one cell: numbers pass through,
parsable strings become numbers (floats when they carry a point),
everything else coerces to NaN. -/
def pdToNumeric (v : Value) : Value :=
  match v with
  | .null => .null
  | .intv n => .intv n
  | .fl q => .fl q
  | .str s =>
    match parseQ? s with
    | none => .null
    | some q => if (sTrim s).toList.contains '.' then .fl q else .intv q.num

/-- Python `==` between cells as pandas evaluates it elementwise: numbers
compare by value across int/float, strings by text, NaN compares unequal
to everything. -/
def valEq (a b : Value) : Bool :=
  match a, b with
  | .intv m, .intv n => m = n
  | .intv m, .fl q => Q.ofInt m = q
  | .fl q, .intv n => q = Q.ofInt n
  | .fl p, .fl q => p = q
  | .str s, .str t => s = t
  | _, _ => false

/-- Python truthiness of a cell (`if not x` tests): None/NaN, empty
string, and zero are falsy. -/
def truthy (v : Value) : Bool :=
  match v with
  | .null => false
  | .str s => s ≠ ""
  | .intv n => n ≠ 0
  | .fl q => !q.isZero

/-!  ## Configuration models (`core/config_models.py`)  -/

/-- `ErrorSeverity` (`core/processing_context.py`). -/
inductive ErrorSeverity where
  | info
  | warning
  | error
  | critical
deriving Repr, DecidableEq

/-- `FilterOperator` enum. -/
inductive FilterOperator where
  | equals
  | not_equals
  | contains
  | not_contains
  | inOp
  | not_in
  | greater_than
  | less_than
  | greater_equal
  | less_equal
  | is_null
  | is_not_null
  | starts_with
  | ends_with
deriving Repr, DecidableEq

/-- `AggregateFunction` enum. -/
inductive AggregateFunction where
  | sum
  | max
  | min
  | mean
  | first
  | last
  | first_non_null
  | count
  | concat
deriving Repr, DecidableEq

/-- `TransformType` enum: the ten transform strategies. -/
inductive TransformType where
  | static
  | direct
  | lookup
  | date
  | phone
  | formula
  | currency_convert
  | tax_exclude
  | clean
  | conditional
deriving Repr, DecidableEq

/-- `LookupStrategy` enum (`order_prefix` is spelled `orderPref` here to
keep identifier endings neutral). -/
inductive LookupStrategy where
  | direct_map
  | country_map
  | currency_map
  | orderPref
deriving Repr, DecidableEq

/-- `TaxStrategy` enum. -/
inductive TaxStrategy where
  | subtract
  | divide
  | pre_calculated
deriving Repr, DecidableEq

/-- `DataTransform` enum. -/
inductive DataTransform where
  | to_string
  | to_numeric
  | to_upper
  | to_lower
  | strip
deriving Repr, DecidableEq

/-- `PhoneCodeConfig`. -/
structure PhoneCodeConfig where
  patterns : List String
  code : String
  digits_to_keep : Nat := 9
deriving Repr, DecidableEq

/-- `GlobalConfig` (the fields the core reads; version/output formatting
are I/O-layer concerns). -/
structure GlobalConfig where
  conversion_rates : List (String × Q)
  tax_divisors : List (String × Q)
  country_phone_codes : List PhoneCodeConfig
  supported_countries : List String
deriving Repr, DecidableEq

/-- The `default_factory` values of `GlobalConfig` in the source. -/
def defaultGlobalConfig : GlobalConfig where
  conversion_rates :=
    [("United Arab Emirates", Q.mk' 367 100),
     ("Saudi Arabia", Q.mk' 375 100),
     ("Kuwait", Q.mk' 3058 10000)]
  tax_divisors :=
    [("United Arab Emirates", Q.mk' 105 100),
     ("Saudi Arabia", Q.mk' 115 100),
     ("Kuwait", Q.ofInt 1)]
  country_phone_codes :=
    [⟨["AE", "United Arab Emirates", "UAE"], "+971", 9⟩,
     ⟨["SA", "Saudi Arabia", "KSA"], "+966", 9⟩,
     ⟨["KW", "Kuwait"], "+965", 9⟩,
     ⟨["BH", "Bahrain"], "+973", 9⟩]
  supported_countries := ["United Arab Emirates", "Saudi Arabia", "Kuwait"]

/-- `GlobalConfig.get_phone_code`: first phone-code entry one of whose
patterns case-insensitively equals the country value. -/
def GlobalConfig.get_phone_code (g : GlobalConfig) (country : Value) :
    Option (String × Nat) :=
  let country_upper := sTrim (sToUpper (pyStr country))
  g.country_phone_codes.findSome? (fun pc =>
    if pc.patterns.any (fun p => sToUpper p = country_upper) then
      some (pc.code, pc.digits_to_keep)
    else none)

/-- A value, a list, or a dict, as a filter condition's configured
`value` (a dict can only arise from resolving a rate-table reference; no
shipped filter uses one and the operators reject it). -/
inductive CondVal where
  | val (v : Value)
  | vlist (l : List Value)
  | cdict (d : List (String × Q))
deriving Repr, DecidableEq

/-- `FilterCondition`. -/
structure FilterCondition where
  column : String
  operator : FilterOperator := .equals
  value : CondVal := .val .null
  case_sensitive : Bool := false
  skip_if_column_missing : Bool := false
deriving Repr, DecidableEq

/-- Filter combination mode. -/
inductive FilterMode where
  | all_of
  | any_of
deriving Repr, DecidableEq

/-- `FilterConfig`. -/
structure FilterConfig where
  mode : FilterMode := .all_of
  conditions : List FilterCondition := []
deriving Repr, DecidableEq

/-- `AggregationRule`. -/
structure AggregationRule where
  source : String
  function : AggregateFunction
  coerce_numeric : Bool := false
  separator : String := ", "
deriving Repr, DecidableEq

/-- `AggregateConfig`; the `aggregations` dict keeps insertion order. -/
structure AggregateConfig where
  group_by : String
  aggregations : List (String × AggregationRule)
deriving Repr, DecidableEq

/-- `LookupConfig`. -/
structure LookupConfig where
  strategy : LookupStrategy
  source_column : String
  mapping : List (String × Value)
  default : Value := .null
  prefix_length : Option Nat := none
deriving Repr, DecidableEq

/-- `DateConfig`. -/
structure DateConfig where
  source_column : String
  input_format : String := "auto"
  output_format : String := "%Y-%m-%dT%H:%M"
deriving Repr, DecidableEq

/-- `PhoneConfig`. -/
structure PhoneConfig where
  country_column : String
  phone_column : String
deriving Repr, DecidableEq

/-- `FormulaConfig`. -/
structure FormulaConfig where
  expression : String
  coerce_numeric : Bool := true
deriving Repr, DecidableEq

/-- `CurrencyConvertConfig` (`source_currency` is informational only). -/
structure CurrencyConvertConfig where
  source_column : String
  target_currency_column : String
  rates_ref : String := "$ref:global.conversion_rates"
deriving Repr, DecidableEq

/-- `TaxExcludeConfig`. -/
structure TaxExcludeConfig where
  strategy : TaxStrategy
  amount_column : String
  tax_column : Option String := none
  pre_tax_column : Option String := none
  divisor_lookup_column : Option String := none
  divisors_ref : String := "$ref:global.tax_divisors"
deriving Repr, DecidableEq

/-- `CleanConfig`. -/
structure CleanConfig where
  source_column : String
  pattern : String
  replacement : String := ""
deriving Repr, DecidableEq

/-- `ConditionalBranch` (`then` is a Lean keyword, spelled `then_value`). -/
structure ConditionalBranch where
  when : String
  then_value : Value
deriving Repr, DecidableEq

/-- `ConditionalConfig`. -/
structure ConditionalConfig where
  source_column : String
  conditions : List ConditionalBranch
  else_value : Value := .null
deriving Repr, DecidableEq

/-- `FieldMapping`: the tagged union of the ten strategies, with one
optional sub-config slot per variant, exactly as the pydantic model. -/
structure FieldMapping where
  type : TransformType
  value : Value := .null
  source_column : Option String := none
  transform : Option DataTransform := none
  lookup : Option LookupConfig := none
  date : Option DateConfig := none
  phone : Option PhoneConfig := none
  formula : Option FormulaConfig := none
  currency : Option CurrencyConvertConfig := none
  tax : Option TaxExcludeConfig := none
  clean : Option CleanConfig := none
  conditional : Option ConditionalConfig := none
deriving Repr, DecidableEq

/-- `FieldMapping.validate_type_config`, the `model_validator`: looks up
the variant's required sub-config slot, but the raise is nested under a
`type == DIRECT` test, so only a `direct` mapping without `source_column`
is ever rejected.  `.error` models the `ValueError` raise at config-load
time. -/
def FieldMapping.validate_type_config (m : FieldMapping) :
    Except String FieldMapping :=
  let valIsNone : Bool :=
    match m.type with
    | .static => m.value = .null
    | .direct => m.source_column.isNone
    | .lookup => m.lookup.isNone
    | .date => m.date.isNone
    | .phone => m.phone.isNone
    | .formula => m.formula.isNone
    | .currency_convert => m.currency.isNone
    | .tax_exclude => m.tax.isNone
    | .clean => m.clean.isNone
    | .conditional => m.conditional.isNone
  if valIsNone && !(m.type = .static : Bool) then
    if (m.type = .direct : Bool) && m.source_column.isNone then
      .error ("Transform type " ++ sq ++ "direct" ++ sq ++ " requires " ++
        sq ++ "source_column" ++ sq)
    else .ok m
  else .ok m

/-- Whether an `Except` carries a success. -/
def exceptOk {ε α : Type} : Except ε α → Bool
  | .ok _ => true
  | .error _ => false

/-- `ValidateStep`'s configuration dict (`required_fields`,
`quarantine_invalid`, `validate_types` with their `.get` defaults). -/
structure ValidateConfig where
  required_fields : List String := []
  quarantine_invalid : Bool := true
  validate_types : List (String × String) := []
deriving Repr, DecidableEq

/-- `TransformConfig`; the `mappings` dict keeps insertion order. -/
structure TransformConfig where
  mappings : List (String × FieldMapping)
deriving Repr, DecidableEq

/-- A pipeline step: the `step` literal tag fused with its parsed config
(the source's `PipelineStep.parse_config` validator guarantees the pair
agrees, and the engine registers exactly these four executors). -/
inductive StepConfig where
  | filter (c : FilterConfig)
  | aggregate (c : AggregateConfig)
  | transform (c : TransformConfig)
  | validate (c : ValidateConfig)
deriving Repr, DecidableEq

/-- The step's name tag, as dispatched by the engine. -/
def StepConfig.stepName : StepConfig → String
  | .filter _ => "filter"
  | .aggregate _ => "aggregate"
  | .transform _ => "transform"
  | .validate _ => "validate"

/-- `BrandInfo` (name only; `enabled`/`description` are not read by the
core). -/
structure BrandInfo where
  name : String
deriving Repr, DecidableEq

/-- `InputSchema`. -/
structure InputSchema where
  required_columns : List String := []
  optional_columns : List String := []
deriving Repr, DecidableEq

/-- `BrandConfig` (filename patterns belong to the I/O layer). -/
structure BrandConfig where
  brand : BrandInfo
  input_schema : InputSchema := {}
  pipeline : List StepConfig := []
  output_columns : List String := []
deriving Repr, DecidableEq

/-!  ## Processing context and results (`core/processing_context.py`)  -/

/-- `RowError` (the `details` dict is never populated on the modelled
paths and is omitted). -/
structure RowError where
  row_index : Int
  column : Option String
  message : String
  severity : ErrorSeverity
  original_value : Option Value
deriving Repr, DecidableEq

/-- `StepResult` (durations are wall-clock I/O and dropped). -/
structure StepResult where
  step_name : String
  input_rows : Nat
  output_rows : Nat
  filtered_rows : Int
deriving Repr, DecidableEq

/-- `ProcessingResult` (timestamps and `output_file` dropped: I/O). -/
structure ProcessingResult where
  brand_name : String
  success : Bool
  input_rows : Nat
  output_rows : Nat
  step_results : List StepResult
  errors : List RowError
  warnings : List RowError
  quarantined_rows : List Nat
deriving Repr, DecidableEq

/-- `ProcessingContext`: run-scoped mutable state.  The reference cache is
omitted (resolution is pure here, the cache only avoids recomputation). -/
structure ProcessingContext where
  global_config : GlobalConfig
  brand_config : BrandConfig
  current_row : Int := 0
  errors : List RowError := []
  warnings : List RowError := []
  quarantined_rows : List Nat := []
  step_results : List StepResult := []
deriving Repr, DecidableEq

/-- Fresh context as `process` creates it. -/
def initContext (g : GlobalConfig) (brand : BrandConfig) : ProcessingContext :=
  { global_config := g, brand_config := brand }

/-- `ProcessingContext.add_error`: ERROR/CRITICAL go to the error ledger,
everything else to the warning ledger; absent row index defaults to the
current row cursor. -/
def ProcessingContext.add_error (ctx : ProcessingContext) (message : String)
    (column : Option String) (original_value : Option Value)
    (row_index : Option Int) (severity : ErrorSeverity) : ProcessingContext :=
  let e : RowError :=
    { row_index := row_index.getD ctx.current_row
      column := column
      message := message
      severity := severity
      original_value := original_value }
  if severity = .error ∨ severity = .critical then
    { ctx with errors := ctx.errors ++ [e] }
  else
    { ctx with warnings := ctx.warnings ++ [e] }

/-- `ProcessingContext.add_warning`. -/
def ProcessingContext.add_warning (ctx : ProcessingContext) (message : String)
    (column : Option String) (original_value : Option Value)
    (row_index : Option Int) : ProcessingContext :=
  ctx.add_error message column original_value row_index .warning

/-- `ProcessingContext.quarantine_row`: adds to the quarantine set (a
Python set, modelled as an insertion-ordered duplicate-free list) and
records a WARNING entry. -/
def ProcessingContext.quarantine_row (ctx : ProcessingContext)
    (row_index : Nat) (reason : String) : ProcessingContext :=
  let ctx :=
    { ctx with quarantined_rows :=
        if row_index ∈ ctx.quarantined_rows then ctx.quarantined_rows
        else ctx.quarantined_rows ++ [row_index] }
  ctx.add_error ("Row quarantined: " ++ reason) none none
    (some (row_index : Int)) .warning

/-- `ProcessingContext.add_step_result`. -/
def ProcessingContext.add_step_result (ctx : ProcessingContext)
    (r : StepResult) : ProcessingContext :=
  { ctx with step_results := ctx.step_results ++ [r] }

/-- A resolved `$ref:` value: the rate/divisor dicts or the country
list. -/
inductive RefValue where
  | rdict (d : List (String × Q))
  | rlist (l : List String)
deriving Repr, DecidableEq

/-- `ProcessingContext.resolve_reference` on the three `global.` paths its
docstring supports; `none` models the `ValueError` raise on any other
reference. -/
def resolve_reference (g : GlobalConfig) (ref : String) : Option RefValue :=
  if ref = "$ref:global.conversion_rates" then some (.rdict g.conversion_rates)
  else if ref = "$ref:global.tax_divisors" then some (.rdict g.tax_divisors)
  else if ref = "$ref:global.supported_countries" then
    some (.rlist g.supported_countries)
  else none

/-- `ProcessingContext.get_result`: note `success` is the caller's flag
conjoined with the error ledger being empty — any recorded ERROR or
CRITICAL entry forces `success = false`. -/
def ProcessingContext.get_result (ctx : ProcessingContext)
    (input_rows output_rows : Nat) (success : Bool) : ProcessingResult :=
  { brand_name := ctx.brand_config.brand.name
    success := success && ctx.errors.isEmpty
    input_rows := input_rows
    output_rows := output_rows
    step_results := ctx.step_results
    errors := ctx.errors
    warnings := ctx.warnings
    quarantined_rows := ctx.quarantined_rows }

/-- Append transformer-built warning entries to the warning ledger. -/
def ProcessingContext.addWarnList (ctx : ProcessingContext)
    (ws : List RowError) : ProcessingContext :=
  { ctx with warnings := ctx.warnings ++ ws }

/-!  ## Field transformers (`transformers/implementations.py`)  -/

/-- `BaseTransformer.get_column_value`: row value when the key is present
(even when the stored value is null), the default otherwise. -/
def get_column_value (row : Row) (column : String) (dflt : Value) : Value :=
  match rowGet? row column with
  | some v => v
  | none => dflt

/-- A transformer call either produces a value (Python `None` included)
or raises; a raise propagates to the transform step's per-field
`try/except`. -/
inductive TransformOutcome where
  | ok (v : Value)
  | raised (msg : String)
deriving Repr, DecidableEq

/-- Warning entry as a transformer records it (explicit row index). -/
def mkWarn (ri : Int) (col : Option String) (msg : String)
    (orig : Option Value) : RowError :=
  { row_index := ri, column := col, message := msg
    severity := .warning, original_value := orig }

/-- The shared `_normalize_country` helper of the lookup, currency and
tax transformers. -/
def normalizeCountry (v : Value) : String :=
  let value_str := sTrim (sToUpper (pyStr v))
  if value_str = "AE" ∨ value_str = "UAE" then "United Arab Emirates"
  else if value_str = "SA" ∨ value_str = "KSA" then "Saudi Arabia"
  else if value_str = "KW" then "Kuwait"
  else if value_str = "BH" then "Bahrain"
  else pyStr v

/-- Numeric payload of a numeric cell. -/
def numericQ (v : Value) : Q :=
  match v with
  | .intv n => Q.ofInt n
  | .fl q => q
  | _ => Q.ofInt 0

/-- Python subtraction on numeric cells: int minus int stays int,
anything with a float is a float. -/
def valueSub (a b : Value) : Value :=
  match a, b with
  | .intv m, .intv n => .intv (m - n)
  | a, b => .fl (Q.sub (numericQ a) (numericQ b))

/-- `StaticTransformer.transform`. -/
def staticTransform (m : FieldMapping) : Value := m.value

/-- `DirectTransformer._apply_transform` (its `try/except` never fires on
these total operations). -/
def applyDataTransform (v : Value) (t : DataTransform) : Value :=
  match t with
  | .to_string => .str (pyStr v)
  | .to_numeric => pdToNumeric v
  | .to_upper => .str (sToUpper (pyStr v))
  | .to_lower => .str (sToLower (pyStr v))
  | .strip => .str (sTrim (pyStr v))

/-- `DirectTransformer.transform`: `if not mapping.source_column` is
Python falsiness, so a `None` or empty source column yields null. -/
def directTransform (row : Row) (m : FieldMapping) : Value :=
  match m.source_column with
  | none => .null
  | some sc =>
    if sc = "" then .null
    else
      let v := get_column_value row sc .null
      if v = .null then .null
      else
        match m.transform with
        | none => v
        | some t => applyDataTransform v t

/-- First stored value for a key in a lookup mapping. -/
def assocGetV (m : List (String × Value)) (k : String) : Option Value :=
  (m.find? (fun kv => kv.1 = k)).map (fun kv => kv.2)

/-- `LookupTransformer._lookup_direct`: country normalization for the
country-map strategy, exact key match, then case-insensitive key match,
then the configured default. -/
def lookupDirect (cfg : LookupConfig) (v : Value) : Value :=
  let v := if cfg.strategy = .country_map then Value.str (normalizeCountry v) else v
  let str_value := sTrim (pyStr v)
  let result := assocGetV cfg.mapping str_value
  let resultIsNone : Bool :=
    match result with
    | none => true
    | some .null => true
    | some _ => false
  if resultIsNone then
    match cfg.mapping.find? (fun kv => sToUpper kv.1 = sToUpper str_value) with
    | some kv => kv.2
    | none => cfg.default
  else (result.getD .null)

/-- `LookupTransformer._lookup_by_prefix`: uppercase, take the first N
characters (`config.prefix_length or 4`: Python `or`, so 0 also falls
back to 4), look the prefix up. -/
def lookupByPref (cfg : LookupConfig) (v : Value) : Value :=
  let str_value := sToUpper (pyStr v)
  let plen :=
    match cfg.prefix_length with
    | some n => if n = 0 then 4 else n
    | none => 4
  let pre := sTake str_value plen
  match assocGetV cfg.mapping pre with
  | some r => if r = .null then cfg.default else r
  | none => cfg.default

/-- `LookupTransformer.transform`. -/
def lookupTransform (row : Row) (m : FieldMapping) : Value :=
  match m.lookup with
  | none => .null
  | some cfg =>
    let source_value := get_column_value row cfg.source_column .null
    if source_value = .null then cfg.default
    else if cfg.strategy = .orderPref then lookupByPref cfg source_value
    else lookupDirect cfg source_value

/-- Calendar components of a parsed date. -/
structure DateParts where
  year : Nat
  month : Nat
  day : Nat
  hour : Nat
  minute : Nat
  second : Nat
deriving Repr, DecidableEq

/-- All-digit string to a number. -/
def toNatDigits? (s : String) : Option Nat :=
  if s ≠ "" ∧ s.toList.all Char.isDigit then some (digitsToNat s.toList)
  else none

/-- Date part of a date string: `YYYY-MM-DD` or `DD.MM.YYYY`. -/
def parseDatePart (d : String) : Option (Nat × Nat × Nat) :=
  match sSplitOn d "-" with
  | [y, mo, dd] => do
    let y ← toNatDigits? y
    let mo ← toNatDigits? mo
    let dd ← toNatDigits? dd
    pure (y, mo, dd)
  | _ =>
    match sSplitOn d "." with
    | [dd, mo, y] => do
      let y ← toNatDigits? y
      let mo ← toNatDigits? mo
      let dd ← toNatDigits? dd
      pure (y, mo, dd)
    | _ => none

/-- Time part of a date string: `HH:MM` or `HH:MM:SS`. -/
def parseTimePart (t : String) : Option (Nat × Nat × Nat) :=
  match sSplitOn t ":" with
  | [h, mi] => do
    let h ← toNatDigits? h
    let mi ← toNatDigits? mi
    pure (h, mi, 0)
  | [h, mi, s] => do
    let h ← toNatDigits? h
    let mi ← toNatDigits? mi
    let s ← toNatDigits? s
    pure (h, mi, s)
  | _ => none

/-- Models `pd.to_datetime` / `dateutil` auto-parsing on the textual date
shapes the repository's configs and tests feed it (`YYYY-MM-DD
[HH:MM[:SS]]`, `DD.MM.YYYY [HH:MM]`). -/
def parseDateAuto (s : String) : Option DateParts :=
  let s := sTrim s
  let s := sReplace s "T" " "
  match sSplitOn s " " with
  | [d] => (parseDatePart d).map (fun dp =>
      ⟨dp.1, dp.2.1, dp.2.2, 0, 0, 0⟩)
  | [d, t] => do
    let dp ← parseDatePart d
    let tp ← parseTimePart t
    pure ⟨dp.1, dp.2.1, dp.2.2, tp.1, tp.2.1, tp.2.2⟩
  | _ => none

/-- Zero-padded two-digit rendering. -/
def pad2 (n : Nat) : String :=
  if n < 10 then "0" ++ toString n else toString n

/-- `strftime` on the format directives the configs use. -/
def strftimeGo (dp : DateParts) : List Char → String
  | [] => ""
  | '%' :: 'Y' :: rest => toString dp.year ++ strftimeGo dp rest
  | '%' :: 'm' :: rest => pad2 dp.month ++ strftimeGo dp rest
  | '%' :: 'd' :: rest => pad2 dp.day ++ strftimeGo dp rest
  | '%' :: 'H' :: rest => pad2 dp.hour ++ strftimeGo dp rest
  | '%' :: 'M' :: rest => pad2 dp.minute ++ strftimeGo dp rest
  | '%' :: 'S' :: rest => pad2 dp.second ++ strftimeGo dp rest
  | '%' :: c :: rest => strOfChar c ++ strftimeGo dp rest
  | c :: rest => strOfChar c ++ strftimeGo dp rest

/-- `strftime` driver. -/
def strftimeModel (fmt : String) (dp : DateParts) : String :=
  strftimeGo dp fmt.toList

/-- `DateTransformer.transform`: the exception-text suffix of the warning
message is abstracted away (it comes from the external parser). -/
def dateTransform (row : Row) (m : FieldMapping) (ri : Int) :
    List RowError × TransformOutcome :=
  match m.date with
  | none => ([], .ok .null)
  | some cfg =>
    let value := get_column_value row cfg.source_column .null
    if value = .null then ([], .ok .null)
    else
      match value with
      | .str s =>
        match parseDateAuto s with
        | some dp => ([], .ok (.str (strftimeModel cfg.output_format dp)))
        | none =>
          ([mkWarn ri (some cfg.source_column) "Date parsing failed" (some value)],
           .ok .null)
      | v =>
        ([mkWarn ri (some cfg.source_column) "Date parsing failed" (some v)],
         .ok .null)

/-- `PhoneTransformer.transform`. -/
def phoneTransform (g : GlobalConfig) (row : Row) (m : FieldMapping) : Value :=
  match m.phone with
  | none => .null
  | some cfg =>
    let country := get_column_value row cfg.country_column .null
    let phone := get_column_value row cfg.phone_column .null
    if phone = .null then .null
    else
      let phone_str := sReplace (sReplace (sReplace (pyStr phone) " " "") ".0" "") "-" ""
      let phone_str := if sStartsWith phone_str "+" then sDrop phone_str 1 else phone_str
      let phone_str := if sStartsWith phone_str "00" then sDrop phone_str 2 else phone_str
      match g.get_phone_code country with
      | some (code, digits_to_keep) =>
        let local_number :=
          if sLength phone_str ≥ digits_to_keep then takeLast phone_str digits_to_keep
          else phone_str
        .str (code ++ local_number)
      | none => .str phone_str

/-- Characters of an expression before the first right brace, plus the
remainder after that brace. -/
def takeUntilRB : List Char → Option (List Char × List Char)
  | [] => none
  | c :: rest =>
    if c = rbrace then some ([], rest)
    else (takeUntilRB rest).map (fun p => (c :: p.1, p.2))

/-- The literal head of the COALESCE pattern. -/
def coalLit : List Char := "COALESCE(".toList

/-- Parse the tail of `COALESCE({col}, default)` starting after the
literal `COALESCE(`: brace-wrapped column, comma, whitespace, a numeric
default, closing parenthesis. -/
def parseCoalesceTail (cs : List Char) : Option (String × String × List Char) :=
  match cs with
  | [] => none
  | c :: rest =>
    if c = lbrace then
      match takeUntilRB rest with
      | none => none
      | some (colChars, afterRB) =>
        if colChars = [] then none
        else
          match afterRB with
          | ',' :: rest2 =>
            let rest3 := rest2.dropWhile Char.isWhitespace
            let intD := rest3.takeWhile Char.isDigit
            let rest4 := rest3.dropWhile Char.isDigit
            if intD = [] then none
            else
              match rest4 with
              | ')' :: rest5 => some (String.mk colChars, String.mk intD, rest5)
              | '.' :: rest5 =>
                let fr := rest5.takeWhile Char.isDigit
                let rest6 := rest5.dropWhile Char.isDigit
                if fr = [] then none
                else
                  match rest6 with
                  | ')' :: rest7 =>
                    some (String.mk colChars, String.mk (intD ++ '.' :: fr), rest7)
                  | _ => none
              | _ => none
          | _ => none
    else none

/-- `FormulaTransformer._handle_coalesce`'s `replace_coalesce`: the
column's numeric value if present and parsable, else the literal
default. -/
def replaceCoalesce (row : Row) (coerce : Bool) (col dflt : String) : String :=
  let value := get_column_value row col .null
  if value = .null then dflt
  else if coerce then
    match pdToNumeric value with
    | .null => dflt
    | v => qDecimalRepr (numericQ v)
  else pyStr value

/-- The `re.sub` scan for the COALESCE pattern: left-to-right,
non-overlapping, a failed match advances one character. -/
def coalesceScan (row : Row) (coerce : Bool) : Nat → List Char → List Char
  | 0, cs => cs
  | _, [] => []
  | fuel+1, c :: cs =>
    if leadsWith coalLit (c :: cs) then
      match parseCoalesceTail ((c :: cs).drop coalLit.length) with
      | some (col, dflt, rest) =>
        (replaceCoalesce row coerce col dflt).toList ++ coalesceScan row coerce fuel rest
      | none => c :: coalesceScan row coerce fuel cs
    else c :: coalesceScan row coerce fuel cs

/-- `FormulaTransformer._handle_coalesce`. -/
def handleCoalesce (row : Row) (coerce : Bool) (expr : String) : String :=
  String.mk (coalesceScan row coerce expr.length expr.toList)

/-- `re.findall` of the `{column}` placeholder pattern: every
brace-wrapped nonempty run of non-brace characters, left to right. -/
def findPlaceholders : Nat → List Char → List String
  | 0, _ => []
  | _, [] => []
  | fuel+1, c :: cs =>
    if c = lbrace then
      match takeUntilRB cs with
      | some (content, rest) =>
        if content = [] then findPlaceholders fuel rest
        else String.mk content :: findPlaceholders fuel rest
      | none => []
    else findPlaceholders fuel cs

/-- The placeholder substitution loop: each reference is read from the
row (default 0), optionally numeric-coerced with NaN collapsing to 0,
and spliced in as `str(float(value))`; `none` models the `float()` raise
escaping to the step. -/
def substPlaceholders (row : Row) (coerce : Bool) :
    List String → String → Option String
  | [], e => some e
  | col :: rest, e =>
    let value := get_column_value row col (.intv 0)
    let value :=
      if coerce then
        match pdToNumeric value with
        | .null => Value.intv 0
        | v => v
      else value
    match floatStr? value with
    | none => none
    | some fs =>
      substPlaceholders row coerce rest
        (sReplace e (strOfChar lbrace ++ col ++ strOfChar rbrace) fs)

/-- The exact text `FormulaTransformer.transform` hands to Python `eval`
after COALESCE resolution and placeholder substitution (`none` when the
substitution itself raises).  Note the transformer applies no token check
of any kind between this point and the `eval` call. -/
def formulaEvalInput (row : Row) (cfg : FormulaConfig) : Option String :=
  let e1 := handleCoalesce row cfg.coerce_numeric cfg.expression
  substPlaceholders row cfg.coerce_numeric (findPlaceholders e1.length e1.toList) e1

/-- Arithmetic token. -/
inductive FTok where
  | num (q : Q) (isFloat : Bool)
  | plus
  | minus
  | star
  | slash
  | lpar
  | rpar
deriving Repr, DecidableEq

/-- Tokenizer for the arithmetic fragment of Python expressions. -/
def tokenizeArith : Nat → List Char → Option (List FTok)
  | 0, _ => none
  | _, [] => some []
  | fuel+1, c :: cs =>
    if c.isWhitespace then tokenizeArith fuel cs
    else if c = '+' then (tokenizeArith fuel cs).map (fun ts => .plus :: ts)
    else if c = '-' then (tokenizeArith fuel cs).map (fun ts => .minus :: ts)
    else if c = '*' then (tokenizeArith fuel cs).map (fun ts => .star :: ts)
    else if c = '/' then (tokenizeArith fuel cs).map (fun ts => .slash :: ts)
    else if c = '(' then (tokenizeArith fuel cs).map (fun ts => .lpar :: ts)
    else if c = ')' then (tokenizeArith fuel cs).map (fun ts => .rpar :: ts)
    else if c.isDigit ∨ c = '.' then
      let ds := (c :: cs).takeWhile (fun x => x.isDigit ∨ x = '.')
      let rest := (c :: cs).dropWhile (fun x => x.isDigit ∨ x = '.')
      match parseQ? (String.mk ds) with
      | some q => (tokenizeArith fuel rest).map (fun ts => FTok.num q (ds.contains '.') :: ts)
      | none => none
    else none

mutual

/-- Additive level of the arithmetic grammar. -/
def parseE : Nat → List FTok → Option ((Q × Bool) × List FTok)
  | 0, _ => none
  | fuel+1, ts => do
    let (v, r) ← parseT fuel ts
    parseELoop fuel v r

/-- Left-associative fold of `+`/`-`. -/
def parseELoop : Nat → (Q × Bool) → List FTok → Option ((Q × Bool) × List FTok)
  | 0, _, _ => none
  | fuel+1, acc, .plus :: ts => do
    let (v, r) ← parseT fuel ts
    parseELoop fuel (Q.add acc.1 v.1, acc.2 || v.2) r
  | fuel+1, acc, .minus :: ts => do
    let (v, r) ← parseT fuel ts
    parseELoop fuel (Q.sub acc.1 v.1, acc.2 || v.2) r
  | _+1, acc, ts => some (acc, ts)

/-- Multiplicative level. -/
def parseT : Nat → List FTok → Option ((Q × Bool) × List FTok)
  | 0, _ => none
  | fuel+1, ts => do
    let (v, r) ← parseF fuel ts
    parseTLoop fuel v r

/-- Left-associative fold of `*`/`/`; `/` is Python true division (always
a float), and division by zero fails like `ZeroDivisionError`. -/
def parseTLoop : Nat → (Q × Bool) → List FTok → Option ((Q × Bool) × List FTok)
  | 0, _, _ => none
  | fuel+1, acc, .star :: ts => do
    let (v, r) ← parseF fuel ts
    parseTLoop fuel (Q.mul acc.1 v.1, acc.2 || v.2) r
  | fuel+1, acc, .slash :: ts => do
    let (v, r) ← parseF fuel ts
    if v.1.isZero then none else parseTLoop fuel (Q.div acc.1 v.1, true) r
  | _+1, acc, ts => some (acc, ts)

/-- Atom level: numbers, unary sign, parentheses. -/
def parseF : Nat → List FTok → Option ((Q × Bool) × List FTok)
  | 0, _ => none
  | _+1, .num q f :: ts => some ((q, f), ts)
  | fuel+1, .plus :: ts => parseF fuel ts
  | fuel+1, .minus :: ts => (parseF fuel ts).map (fun vr => ((Q.neg vr.1.1, vr.1.2), vr.2))
  | fuel+1, .lpar :: ts => do
    let (v, r) ← parseE fuel ts
    match r with
    | .rpar :: r2 => some (v, r2)
    | _ => none
  | _+1, _ => none

end

/-- Models the `eval(eval_expr, {"__builtins__": {}}, {})` call on the
arithmetic fragment the well-formed formulas generate.  `none` covers
both a syntax error and a zero division, which the transformer's
`try/except` turns into a warning and null.  Python's `eval` itself
accepts strictly more than this fragment (other operators, calls on
literals); that surplus is the subject of the C2 analysis. -/
def pyEval (s : String) : Option Value := do
  let toks ← tokenizeArith (s.length + 1) s.toList
  let (v, rest) ← parseE (3 * toks.length + 8) toks
  if rest = [] then
    some (if v.2 then Value.fl v.1 else Value.intv v.1.num)
  else none

/-- `FormulaTransformer.transform`. -/
def formulaTransform (row : Row) (m : FieldMapping) (ri : Int) :
    List RowError × TransformOutcome :=
  match m.formula with
  | none => ([], .ok .null)
  | some cfg =>
    match formulaEvalInput row cfg with
    | none => ([], .raised "could not convert string to float")
    | some e =>
      match pyEval e with
      | some v => ([], .ok v)
      | none =>
        ([mkWarn ri none "Formula evaluation failed" (some (.str cfg.expression))],
         .ok .null)

/-- `re.sub(r"[\$,\s]", "", s)`: strip currency symbols, commas and
whitespace. -/
def stripCurrencyChars (s : String) : String :=
  String.mk (s.toList.filter (fun c => ¬(c = '$' ∨ c = ',' ∨ c.isWhitespace)))

/-- `CurrencyConvertTransformer.transform`. -/
def currencyTransform (g : GlobalConfig) (row : Row) (m : FieldMapping)
    (ri : Int) : List RowError × TransformOutcome :=
  match m.currency with
  | none => ([], .ok .null)
  | some cfg =>
    let source_value := get_column_value row cfg.source_column .null
    if source_value = .null then ([], .ok .null)
    else
      let source_value :=
        match source_value with
        | .str s => Value.str (stripCurrencyChars s)
        | v => v
      let amount := pdToNumeric source_value
      if amount = .null then
        ([mkWarn ri (some cfg.source_column) "Could not convert amount to numeric"
            (some source_value)],
         .ok .null)
      else
        let target_country := get_column_value row cfg.target_currency_column .null
        if ¬truthy target_country then ([], .ok amount)
        else
          let country := normalizeCountry target_country
          match resolve_reference g cfg.rates_ref with
          | none => ([], .raised ("Cannot resolve reference: " ++ cfg.rates_ref))
          | some (.rdict rates) =>
            match rates.find? (fun kv => kv.1 = country) with
            | some kv =>
              if !kv.2.isZero then ([], .ok (.fl (Q.mul (numericQ amount) kv.2)))
              else ([], .ok amount)
            | none => ([], .ok amount)
          | some _ => ([], .ok amount)

/-- `TaxExcludeTransformer.transform` with its three strategies (the row
index parameter of the source is used only inside its helpers' signatures
and never reaches a ledger entry on these paths). -/
def taxTransform (g : GlobalConfig) (row : Row) (m : FieldMapping)
    (_ri : Int) : List RowError × TransformOutcome :=
  match m.tax with
  | none => ([], .ok .null)
  | some cfg =>
    match cfg.strategy with
    | .subtract =>
      let total := pdToNumeric (get_column_value row cfg.amount_column .null)
      let tax := pdToNumeric
        (match cfg.tax_column with
         | some c => get_column_value row c (.intv 0)
         | none => .intv 0)
      if total = .null then ([], .ok .null)
      else
        let tax := if tax = .null then Value.intv 0 else tax
        ([], .ok (valueSub total tax))
    | .divide =>
      let total := pdToNumeric (get_column_value row cfg.amount_column .null)
      if total = .null then ([], .ok .null)
      else
        let country :=
          match cfg.divisor_lookup_column with
          | some c => get_column_value row c .null
          | none => .null
        if ¬truthy country then ([], .ok total)
        else
          let country := normalizeCountry country
          match resolve_reference g cfg.divisors_ref with
          | none => ([], .raised ("Cannot resolve reference: " ++ cfg.divisors_ref))
          | some (.rdict divisors) =>
            let divisor := (((divisors.find? (fun kv => kv.1 = country)).map
              (fun kv => kv.2)).getD (Q.ofInt 1))
            if !divisor.isZero then ([], .ok (.fl (Q.div (numericQ total) divisor)))
            else ([], .ok total)
          | some _ => ([], .ok total)
    | .pre_calculated =>
      let v :=
        match cfg.pre_tax_column with
        | some c => get_column_value row c .null
        | none => .null
      ([], .ok (pdToNumeric v))

/-- `CleanTransformer.transform`.  `re.sub` is modelled as literal
substitution, which coincides with it on the metacharacter-free patterns
the configs carry; the regex-failure warning path never fires there. -/
def cleanTransform (row : Row) (m : FieldMapping) : Value :=
  match m.clean with
  | none => .null
  | some cfg =>
    let value := get_column_value row cfg.source_column .null
    if value = .null then .null
    else .str (sReplace (pyStr value) cfg.pattern cfg.replacement)

/-- Quote characters accepted by the conditional grammar. -/
def quoteCh (c : Char) : Bool := c = Char.ofNat 39 ∨ c = Char.ofNat 34

/-- Word character of the `\w+` class. -/
def isWordChar (c : Char) : Bool := c.isAlphanum ∨ c = '_'

/-- All proper leading segments of `cs` that are followed by a quote
character and a closing parenthesis (split points of the greedy `(.+)`
group). -/
def quoteParenSplits (acc : List Char) : List Char → List (List Char)
  | [] => []
  | c :: rest =>
    let here :=
      match rest with
      | ')' :: _ => if quoteCh c ∧ acc ≠ [] then [acc.reverse] else []
      | _ => []
    here ++ quoteParenSplits (c :: acc) rest

/-- `re.match(r"(\w+)\.startswith\(['\"](.+)['\"]\)", cond)`: anchored at
the start, trailing text permitted, greedy content group. -/
def parseStartswithCond (s : String) : Option (String × String) :=
  let cs := s.toList
  let w := cs.takeWhile isWordChar
  let rest := cs.dropWhile isWordChar
  if w = [] then none
  else if leadsWith ".startswith(".toList rest then
    match rest.drop ".startswith(".length with
    | q :: content =>
      if quoteCh q then
        match (quoteParenSplits [] content).getLast? with
        | some lit => some (String.mk w, String.mk lit)
        | none => none
      else none
    | [] => none
  else none

/-- Python `.strip("'\"")`: drop every leading and trailing quote
character. -/
def stripQuotes (s : String) : String :=
  String.mk (((s.toList.dropWhile quoteCh).reverse.dropWhile quoteCh).reverse)

/-- `ConditionalTransformer._evaluate_condition`: the `startswith` form,
else the `==` form, else no match; both case-insensitive; anything
unparsable never matches and never raises. -/
def evalCondBranch (row : Row) (condition : String) : Bool :=
  let viaStarts : Option Bool :=
    if strContains condition ".startswith(" then
      match parseStartswithCond condition with
      | some (col, pre) =>
        some (sStartsWith (sToUpper (pyStr (get_column_value row col (.str ""))))
          (sToUpper pre))
      | none => none
    else none
  match viaStarts with
  | some b => b
  | none =>
    if strContains condition "==" then
      match sSplitOn condition "==" with
      | [p1, p2] =>
        let col := sTrim p1
        let expected := stripQuotes (sTrim p2)
        sToUpper (pyStr (get_column_value row col (.str ""))) = sToUpper expected
      | _ => false
    else false

/-- `ConditionalTransformer.transform`: first matching branch wins, else
the configured else-value. -/
def conditionalTransform (row : Row) (m : FieldMapping) : Value :=
  match m.conditional with
  | none => .null
  | some cfg =>
    match cfg.conditions.find? (fun b => evalCondBranch row b.when) with
    | some b => b.then_value
    | none => cfg.else_value

/-- `TransformerFactory` dispatch plus the chosen transformer's
`transform`: a pure function of the global config, the (extended) row and
the mapping, together with the warnings it records. -/
def transformValue (g : GlobalConfig) (row : Row) (m : FieldMapping)
    (ri : Int) : List RowError × TransformOutcome :=
  match m.type with
  | .static => ([], .ok (staticTransform m))
  | .direct => ([], .ok (directTransform row m))
  | .lookup => ([], .ok (lookupTransform row m))
  | .date => dateTransform row m ri
  | .phone => ([], .ok (phoneTransform g row m))
  | .formula => formulaTransform row m ri
  | .currency_convert => currencyTransform g row m ri
  | .tax_exclude => taxTransform g row m ri
  | .clean => ([], .ok (cleanTransform row m))
  | .conditional => ([], .ok (conditionalTransform row m))

/-!  ## Transform step (`steps/transform_step.py`)  -/

/-- Value a field receives: the computed value, or null when the
transformer raised. -/
def outcomeVal : TransformOutcome → Value
  | .ok v => v
  | .raised _ => .null

/-- The per-row mapping loop: fields in declared order; each computed
value is appended to the extended row before the next field runs; a raise
records a step-level warning and materializes null.  Returns the final
context, the final extended row, and the ordered (field, value) pairs. -/
def transformRowGo (g : GlobalConfig) :
    ProcessingContext → Row → List (String × FieldMapping) → Int →
    ProcessingContext × Row × List (String × Value)
  | ctx, extended, [], _ => (ctx, extended, [])
  | ctx, extended, (f, m) :: rest, ri =>
    let wo := transformValue g extended m ri
    let ctx := ctx.addWarnList wo.1
    match wo.2 with
    | .ok v =>
      let extended := rowSet extended f v
      let r := transformRowGo g ctx extended rest ri
      (r.1, r.2.1, (f, v) :: r.2.2)
    | .raised msg =>
      let ctx := ctx.add_warning ("Transform failed for " ++ f ++ ": " ++ msg)
        (some f) none (some ri)
      let extended := rowSet extended f .null
      let r := transformRowGo g ctx extended rest ri
      (r.1, r.2.1, (f, .null) :: r.2.2)

/-- The row loop of `TransformStep.execute`: sets the row cursor, runs the
mapping loop on that row's fresh extended copy, keeps the row label. -/
def transformRows (g : GlobalConfig) :
    ProcessingContext → List (Nat × Row) → List (String × FieldMapping) →
    ProcessingContext × List (Nat × Row)
  | ctx, [], _ => (ctx, [])
  | ctx, (idx, r) :: rest, ms =>
    let ctx := { ctx with current_row := (idx : Int) }
    let t := transformRowGo g ctx r ms (idx : Int)
    let rr := transformRows g t.1 rest ms
    (rr.1, (idx, t.2.2) :: rr.2)

/-- `TransformStep.execute`: empty mappings pass the frame through;
otherwise the result frame has exactly the mapped fields as columns and
the input's row labels. -/
def TransformStep.execute (ctx : ProcessingContext) (t : Table)
    (cfg : TransformConfig) : ProcessingContext × Table :=
  if cfg.mappings = [] then (ctx, t)
  else
    let pr := transformRows ctx.global_config ctx t.rows cfg.mappings
    (pr.1, { cols := cfg.mappings.map (fun fm => fm.1), rows := pr.2 })

/-!  ## Validate step (`steps/validate_step.py`)  -/

/-- `ValidateStep._is_empty`: None/NaN or blank string. -/
def isEmptyVal (v : Value) : Bool :=
  match v with
  | .null => true
  | .str s => sTrim s = ""
  | _ => false

/-- `ValidateStep._validate_type`. -/
def validateType (v : Value) (expected : String) : Bool :=
  if isEmptyVal v then true
  else if expected = "numeric" then (pyFloat? v).isSome
  else if expected = "string" then
    match v with
    | .str _ => true
    | _ => false
  else if expected = "date" then
    match v with
    | .str s => strContains s "T" ∨ strContains s "-"
    | _ => true
  else true

/-- The required-field loop for one row: a field absent from the frame's
columns records an ERROR and clears the row-valid flag; a present but
empty value records a WARNING only (`row.index` is the frame's column
set in pandas). -/
def checkRequired (cols : List String) :
    ProcessingContext → Int → Row → List String → ProcessingContext × Bool
  | ctx, _, _, [] => (ctx, true)
  | ctx, ri, r, f :: rest =>
    if f ∈ cols then
      let ctx :=
        if isEmptyVal (cellGet r f) then
          ctx.add_warning ("Required field " ++ sq ++ f ++ sq ++ " is empty")
            (some f) (some (cellGet r f)) (some ri)
        else ctx
      checkRequired cols ctx ri r rest
    else
      let ctx := ctx.add_error ("Required field " ++ sq ++ f ++ sq ++ " missing")
        (some f) none (some ri) .error
      let res := checkRequired cols ctx ri r rest
      (res.1, false)

/-- The type-constraint loop for one row: WARNING only, never
invalidating. -/
def checkTypes (cols : List String) :
    ProcessingContext → Int → Row → List (String × String) → ProcessingContext
  | ctx, _, _, [] => ctx
  | ctx, ri, r, (f, ty) :: rest =>
    let ctx :=
      if f ∈ cols then
        if ¬validateType (cellGet r f) ty then
          ctx.add_warning
            ("Field " ++ sq ++ f ++ sq ++ " has invalid type (expected " ++ ty ++ ")")
            (some f) (some (cellGet r f)) (some ri)
        else ctx
      else ctx
    checkTypes cols ctx ri r rest

/-- The row loop of `ValidateStep.execute`: a row is kept when valid or
when quarantine is off, otherwise it is quarantined with a reason. -/
def validateRows (cfg : ValidateConfig) (cols : List String) :
    ProcessingContext → List (Nat × Row) → ProcessingContext × List (Nat × Row)
  | ctx, [] => (ctx, [])
  | ctx, (idx, r) :: rest =>
    let cr := checkRequired cols ctx (idx : Int) r cfg.required_fields
    let ctx := checkTypes cols cr.1 (idx : Int) r cfg.validate_types
    if cr.2 || !cfg.quarantine_invalid then
      let res := validateRows cfg cols ctx rest
      (res.1, (idx, r) :: res.2)
    else
      let ctx := ctx.quarantine_row idx "Failed validation"
      validateRows cfg cols ctx rest

/-- `ValidateStep.execute`. -/
def ValidateStep.execute (ctx : ProcessingContext) (t : Table)
    (cfg : ValidateConfig) : ProcessingContext × Table :=
  let vr := validateRows cfg t.cols ctx t.rows
  (vr.1, { cols := t.cols, rows := vr.2 })

/-!  ## Filter step (`steps/filter_step.py`)  -/

/-- A pandas column has object dtype when it holds strings (all-numeric
columns are int64/float64; NaN alone keeps a numeric dtype). -/
def colDtypeIsObject (cells : List Value) : Bool :=
  cells.any (fun v =>
    match v with
    | .str _ => true
    | _ => false)

/-- `resolve_ref` on a condition's configured value; an unresolvable
`$ref:` raises (`.error`), escaping the step as a CRITICAL failure. -/
def resolveCondVal (g : GlobalConfig) : CondVal → Except String CondVal
  | .val (.str s) =>
    if sStartsWith s "$ref:" then
      match resolve_reference g s with
      | some (.rlist l) => .ok (.vlist (l.map Value.str))
      | some (.rdict d) => .ok (.cdict d)
      | none => .error ("Cannot resolve reference: " ++ s)
    else .ok (.val (.str s))
  | v => .ok v

/-- Uppercasing of the comparison operand for case-insensitive matching. -/
def condValUpper : CondVal → CondVal
  | .val (.str s) => .val (.str (sToUpper s))
  | .val v => .val v
  | .vlist l =>
    .vlist (l.map (fun v =>
      match v with
      | .str s => Value.str (sToUpper s)
      | v => v))
  | .cdict d => .cdict d

/-- `str(value)` for a condition operand (list repr in Python style). -/
def condValStr : CondVal → String
  | .val v => pyStr v
  | .vlist l =>
    "[" ++ sIntercalate ", "
      (l.map (fun v =>
        match v with
        | .str s => sq ++ s ++ sq
        | v => pyStr v)) ++ "]"
  | .cdict _ => "dict"

/-- `float(value)` on a condition operand; failure is the raise that
aborts the step. -/
def condValFloat? : CondVal → Except String Q
  | .val v =>
    match pyFloat? v with
    | some q => .ok q
    | none => .error "could not convert value to float"
  | _ => .error "float() argument must be a string or a number"

/-- The membership list for `in`/`not_in`: a configured list, or a
comma-separated string coerced to a trimmed list; anything else raises
pandas' `isin` type error. -/
def inListOf : CondVal → Except String (List Value)
  | .vlist l => .ok l
  | .val (.str s) => .ok ((sSplitOn s ",").map (fun x => Value.str (sTrim x)))
  | _ => .error "only list-like objects are allowed to be passed to isin"

/-- `isna | (== "") | (astype(str).strip == "")` per cell. -/
def isNullCell (c : Value) : Bool :=
  match c with
  | .null => true
  | _ => valEq c (.str "") || (sTrim (pyStr c) = "")

/-- `notna & (!= "") & (astype(str).strip != "")` per cell. -/
def notNullCell (c : Value) : Bool :=
  match c with
  | .null => false
  | _ => !valEq c (.str "") && (sTrim (pyStr c) ≠ "")

/-- `FilterStep._apply_operator`: one boolean per row.  NaN-vs-NaN
membership in `isin` differs from this model only for NaN needles, which
no shipped condition uses. -/
def applyOperator (cells : List Value) (op : FilterOperator) (value : CondVal) :
    Except String (List Bool) :=
  match op with
  | .equals =>
    match value with
    | .val v => .ok (cells.map (fun c => valEq c v))
    | .vlist l =>
      if l.length = cells.length then .ok (List.zipWith valEq cells l)
      else .error "Lengths must match to compare"
    | .cdict _ => .error "unsupported comparison operand"
  | .not_equals =>
    match value with
    | .val v => .ok (cells.map (fun c => !valEq c v))
    | .vlist l =>
      if l.length = cells.length then
        .ok (List.zipWith (fun c v => !valEq c v) cells l)
      else .error "Lengths must match to compare"
    | .cdict _ => .error "unsupported comparison operand"
  | .contains => .ok (cells.map (fun c => strContains (pyStr c) (condValStr value)))
  | .not_contains =>
    .ok (cells.map (fun c => !strContains (pyStr c) (condValStr value)))
  | .inOp => do
    let l ← inListOf value
    pure (cells.map (fun c => l.any (valEq c)))
  | .not_in => do
    let l ← inListOf value
    pure (cells.map (fun c => !l.any (valEq c)))
  | .greater_than => do
    let gv ← condValFloat? value
    pure (cells.map (fun c =>
      match pdToNumeric c with
      | .null => false
      | v => Q.ltB gv (numericQ v)))
  | .less_than => do
    let gv ← condValFloat? value
    pure (cells.map (fun c =>
      match pdToNumeric c with
      | .null => false
      | v => Q.ltB (numericQ v) gv))
  | .greater_equal => do
    let gv ← condValFloat? value
    pure (cells.map (fun c =>
      match pdToNumeric c with
      | .null => false
      | v => Q.leB gv (numericQ v)))
  | .less_equal => do
    let gv ← condValFloat? value
    pure (cells.map (fun c =>
      match pdToNumeric c with
      | .null => false
      | v => Q.leB (numericQ v) gv))
  | .is_null => .ok (cells.map isNullCell)
  | .is_not_null => .ok (cells.map notNullCell)
  | .starts_with =>
    .ok (cells.map (fun c => sStartsWith (pyStr c) (condValStr value)))
  | .ends_with =>
    .ok (cells.map (fun c => sEndsWith (pyStr c) (condValStr value)))

/-- `FilterStep._evaluate_condition`: a missing column with the skip flag
warns and excludes the condition; without it, records an ERROR and
contributes an all-true mask; otherwise evaluates the operator after
reference resolution and optional case folding. -/
def evaluateCondition (ctx : ProcessingContext) (t : Table)
    (cond : FilterCondition) :
    ProcessingContext × Except String (Option (List Bool)) :=
  if cond.column ∈ t.cols then
    let col_values := t.rows.map (fun p => cellGet p.2 cond.column)
    match resolveCondVal ctx.global_config cond.value with
    | .error e => (ctx, .error e)
    | .ok value =>
      let pair :=
        if ¬cond.case_sensitive ∧ colDtypeIsObject col_values then
          (col_values.map (fun c => Value.str (sToUpper (pyStr c))), condValUpper value)
        else (col_values, value)
      (ctx, (applyOperator pair.1 cond.operator pair.2).map some)
  else
    if cond.skip_if_column_missing then
      (ctx.add_warning
        ("Filter column " ++ sq ++ cond.column ++ sq ++ " not found, skipping condition")
        none none none,
       .ok none)
    else
      (ctx.add_error ("Filter column " ++ sq ++ cond.column ++ sq ++ " not found")
        none none none .error,
       .ok (some (t.rows.map (fun _ => true))))

/-- The condition loop: collect masks, skipping excluded conditions; a
raise inside any condition aborts the step. -/
def collectMasks (t : Table) :
    ProcessingContext → List FilterCondition →
    ProcessingContext × Except String (List (List Bool))
  | ctx, [] => (ctx, .ok [])
  | ctx, c :: rest =>
    let ec := evaluateCondition ctx t c
    match ec.2 with
    | .error e => (ec.1, .error e)
    | .ok none => collectMasks t ec.1 rest
    | .ok (some m) =>
      let r := collectMasks t ec.1 rest
      match r.2 with
      | .ok ms => (r.1, .ok (m :: ms))
      | .error e => (r.1, .error e)

/-- AND/OR fold of the masks. -/
def combineMasks (mode : FilterMode) (m : List Bool) (ms : List (List Bool)) :
    List Bool :=
  ms.foldl (fun acc x =>
    match mode with
    | .all_of => List.zipWith and acc x
    | .any_of => List.zipWith or acc x) m

/-- `df[mask]`: keep exactly the rows whose mask bit is true, in order,
labels preserved. -/
def applyMask : List (Nat × Row) → List Bool → List (Nat × Row)
  | [], _ => []
  | _ :: _, [] => []
  | r :: rs, b :: bs => if b then r :: applyMask rs bs else applyMask rs bs

/-- `FilterStep.execute`. -/
def FilterStep.execute (ctx : ProcessingContext) (t : Table)
    (cfg : FilterConfig) : ProcessingContext × Except String Table :=
  if cfg.conditions = [] then (ctx, .ok t)
  else
    match collectMasks t ctx cfg.conditions with
    | (ctx1, .error e) => (ctx1, .error e)
    | (ctx1, .ok []) => (ctx1, .ok t)
    | (ctx1, .ok (m :: ms)) =>
      (ctx1, .ok { cols := t.cols, rows := applyMask t.rows (combineMasks cfg.mode m ms) })

/-!  ## Aggregate step (`steps/aggregate_step.py`)  -/

/-- Update one cell of a row in place. -/
def rowModifyCell (r : Row) (c : String) (f : Value → Value) : Row :=
  r.map (fun kv => if kv.1 = c then (kv.1, f kv.2) else kv)

/-- `df[src] = pd.to_numeric(df[src], errors="coerce")`: the in-place
column coercion the aggregate step applies to the frame it was given. -/
def coerceColumn (t : Table) (src : String) : Table :=
  { t with rows := t.rows.map (fun p => (p.1, rowModifyCell p.2 src pdToNumeric)) }

/-- The rule loop: a missing source column warns and skips the rule (the
aggregation-function lookup itself is total: the enum is closed);
`coerce_numeric` mutates the frame before the rule is added. -/
def buildSpec : ProcessingContext → Table → List (String × AggregationRule) →
    ProcessingContext × Table × List (String × AggregationRule)
  | ctx, t, [] => (ctx, t, [])
  | ctx, t, (outName, rule) :: rest =>
    if rule.source ∈ t.cols then
      let t := if rule.coerce_numeric then coerceColumn t rule.source else t
      let r := buildSpec ctx t rest
      (r.1, r.2.1, (outName, rule) :: r.2.2)
    else
      let ctx := ctx.add_warning
        ("Aggregation source column " ++ sq ++ rule.source ++ sq ++ " not found")
        none none none
      buildSpec ctx t rest

/-- Non-null cells of a group column. -/
def nonNullCells (cells : List Value) : List Value :=
  cells.filter (fun c => c ≠ .null)

/-- Whether every cell is numeric. -/
def allNumeric (cells : List Value) : Bool :=
  cells.all (fun c =>
    match c with
    | .intv _ => true
    | .fl _ => true
    | _ => false)

/-- pandas `sum` with default NaN skipping: numeric sum on numeric
groups, string concatenation on all-string groups. -/
def aggSum (cells : List Value) : Value :=
  let nn := nonNullCells cells
  if allNumeric nn then
    if nn.all (fun c =>
        match c with
        | .intv _ => true
        | _ => false) then
      .intv (nn.foldl (fun a c =>
        a + (match c with
             | .intv n => n
             | _ => 0)) 0)
    else .fl (nn.foldl (fun a c => Q.add a (numericQ c)) (Q.ofInt 0))
  else if nn ≠ [] ∧ nn.all (fun c =>
      match c with
      | .str _ => true
      | _ => false) then
    .str (String.join (nn.map pyStr))
  else .null

/-- Ordering used for group keys and max/min (numbers by value, strings
lexicographically; pandas raises on mixed-type keys, the model orders
numbers first). -/
def valueLe (a b : Value) : Bool :=
  match a, b with
  | .intv m, .intv n => m ≤ n
  | .intv m, .fl q => Q.leB (Q.ofInt m) q
  | .fl q, .intv n => Q.leB q (Q.ofInt n)
  | .fl p, .fl q => Q.leB p q
  | .str s, .str t => strLtB s t || s = t
  | .str _, _ => false
  | _, .str _ => true
  | .null, _ => true
  | _, .null => false

/-- pandas `max` (NaN-skipping). -/
def aggMax (cells : List Value) : Value :=
  match nonNullCells cells with
  | [] => .null
  | c :: rest => rest.foldl (fun a x => if valueLe a x then x else a) c

/-- pandas `min` (NaN-skipping). -/
def aggMin (cells : List Value) : Value :=
  match nonNullCells cells with
  | [] => .null
  | c :: rest => rest.foldl (fun a x => if valueLe x a then x else a) c

/-- pandas `mean` (NaN-skipping, float result). -/
def aggMean (cells : List Value) : Value :=
  let nn := nonNullCells cells
  if allNumeric nn ∧ nn ≠ [] then
    .fl (Q.div (nn.foldl (fun a c => Q.add a (numericQ c)) (Q.ofInt 0))
      (Q.ofInt (nn.length : Int)))
  else .null

/-- pandas groupby `first`/the custom `_first_non_null`: both yield the
first non-null value in original row order (NaN when none). -/
def firstNonNullAgg (cells : List Value) : Value :=
  ((nonNullCells cells).head?).getD .null

/-- pandas groupby `last`: last non-null value. -/
def lastNonNullAgg (cells : List Value) : Value :=
  ((nonNullCells cells).getLast?).getD .null

/-- pandas `count`: number of non-null cells. -/
def aggCount (cells : List Value) : Value :=
  .intv ((nonNullCells cells).length : Int)

/-- First-occurrence deduplication, with the already-seen accumulator. -/
def dedupKeepFirstGo (seen : List String) : List String → List String
  | [] => []
  | x :: rest =>
    if x ∈ seen then dedupKeepFirstGo seen rest
    else x :: dedupKeepFirstGo (x :: seen) rest

/-- First-occurrence deduplication (`Series.unique`). -/
def dedupKeepFirst (l : List String) : List String :=
  dedupKeepFirstGo [] l

/-- The `concat` lambda: distinct non-null stringified values joined with
the configured separator. -/
def aggConcat (sep : String) (cells : List Value) : Value :=
  .str (sIntercalate sep (dedupKeepFirst ((nonNullCells cells).map pyStr)))

/-- `_get_agg_function` composed with the chosen reduction. -/
def applyAgg (rule : AggregationRule) (cells : List Value) : Value :=
  match rule.function with
  | .sum => aggSum cells
  | .max => aggMax cells
  | .min => aggMin cells
  | .mean => aggMean cells
  | .first => firstNonNullAgg cells
  | .last => lastNonNullAgg cells
  | .count => aggCount cells
  | .first_non_null => firstNonNullAgg cells
  | .concat => aggConcat rule.separator cells

/-- Sorted insertion for group keys. -/
def insertSorted (x : Value) : List Value → List Value
  | [] => [x]
  | y :: ys => if valueLe x y then x :: y :: ys else y :: insertSorted x ys

/-- Sort the key values (`groupby(sort=True)`). -/
def sortVals (l : List Value) : List Value :=
  l.foldr insertSorted []

/-- Collapse adjacent equal keys (pandas groups ints and equal floats
together). -/
def dedupSorted : List Value → List Value
  | [] => []
  | [x] => [x]
  | x :: y :: rest =>
    if valEq x y then dedupSorted (y :: rest)
    else x :: dedupSorted (y :: rest)

/-- Distinct non-null group keys in sorted order (pandas drops NaN keys
by default). -/
def groupKeys (t : Table) (group_by : String) : List Value :=
  dedupSorted (sortVals (nonNullCells (t.rows.map (fun p => cellGet p.2 group_by))))

/-- `df.groupby(group_by, as_index=False).agg(**spec)`: one output row
per key, the group column first, aggregated columns in spec order, a
fresh range index. -/
def performAgg (t : Table) (group_by : String)
    (spec : List (String × AggregationRule)) : Table :=
  let keys := groupKeys t group_by
  { cols := group_by :: spec.map (fun s => s.1)
    rows := ((List.range keys.length).zip keys).map (fun ik =>
      (ik.1, (group_by, ik.2) :: spec.map (fun sr =>
        (sr.1, applyAgg sr.2
          ((t.rows.filter (fun p => valEq (cellGet p.2 group_by) ik.2)).map
            (fun p => cellGet p.2 sr.2.source)))))) }

/-- `AggregateStep.execute`: returns the context, the state of the frame
it was handed (the step coerces columns of that frame in place), and the
frame it returns to the engine.  The guarded branches return the handed
frame itself; a missing group-by column returns before any mutation.
The `try/except` around the pandas aggregation is unreachable here: the
modelled aggregation is total. -/
def AggregateStep.execute (ctx : ProcessingContext) (t : Table)
    (cfg : AggregateConfig) : ProcessingContext × Table × Table :=
  if cfg.group_by ∈ t.cols then
    let bs := buildSpec ctx t cfg.aggregations
    if bs.2.2 = [] then
      ((bs.1.add_error "No valid aggregations to perform" none none none .error),
       bs.2.1, bs.2.1)
    else (bs.1, bs.2.1, performAgg bs.2.1 cfg.group_by bs.2.2)
  else
    ((ctx.add_error ("Group by column " ++ sq ++ cfg.group_by ++ sq ++ " not found")
        none none none .error),
     t, t)

/-!  ## Pipeline engine (`core/pipeline_engine.py`)  -/

/-- Outcome of the step loop. -/
inductive RunOutcome where
  | completed (ctx : ProcessingContext) (t : Table)
  | emptyStop (ctx : ProcessingContext) (stepName : String)
  | abortedCritical (ctx : ProcessingContext)
deriving Repr, DecidableEq

/-- Dispatch one step; the middle component is the state of the frame the
step was handed (only the aggregate step writes to it), the last the
step's return, `.error` a raise.  The four registered executors cover
every `step` literal, so the unknown-step CRITICAL branch of the engine
is unreachable. -/
def executeStep (ctx : ProcessingContext) (t : Table) :
    StepConfig → ProcessingContext × Table × Except String Table
  | .filter c =>
    let r := FilterStep.execute ctx t c
    (r.1, t, r.2)
  | .aggregate c =>
    let r := AggregateStep.execute ctx t c
    (r.1, r.2.1, .ok r.2.2)
  | .transform c =>
    let r := TransformStep.execute ctx t c
    (r.1, t, .ok r.2)
  | .validate c =>
    let r := ValidateStep.execute ctx t c
    (r.1, t, .ok r.2)

/-- The engine's step loop: a raise records a CRITICAL and aborts; a
step result is recorded; an empty result records a WARNING and stops the
run benignly; otherwise the result becomes the next step's input. -/
def runPipeline : ProcessingContext → Table → List StepConfig → RunOutcome
  | ctx, current, [] => .completed ctx current
  | ctx, current, sc :: rest =>
    let es := executeStep ctx current sc
    match es.2.2 with
    | .error msg =>
      .abortedCritical (es.1.add_error
        ("Step " ++ sq ++ sc.stepName ++ sq ++ " failed: " ++ msg)
        none none none .critical)
    | .ok rdf =>
      let ctx2 := es.1.add_step_result
        { step_name := sc.stepName
          input_rows := current.rows.length
          output_rows := rdf.rows.length
          filtered_rows := (current.rows.length : Int) - (rdf.rows.length : Int) }
      if rdf.rows.length = 0 then
        .emptyStop (ctx2.add_warning
          ("Step " ++ sq ++ sc.stepName ++ sq ++ " produced no output rows")
          none none none) sc.stepName
      else runPipeline ctx2 rdf rest

/-- `PipelineEngine._validate_schema`: missing required columns are
CRITICAL and collected; missing optional columns warn. -/
def validateSchema (ctx : ProcessingContext) (df : Table) (brand : BrandConfig) :
    ProcessingContext × List String :=
  let r1 := brand.input_schema.required_columns.foldl
    (fun (acc : ProcessingContext × List String) col =>
      if col ∈ df.cols then acc
      else
        let msg := "Missing required column: " ++ col
        (acc.1.add_error msg none none none .critical, acc.2 ++ [msg]))
    (ctx, [])
  let ctx2 := brand.input_schema.optional_columns.foldl
    (fun acc col =>
      if col ∈ df.cols then acc
      else acc.add_warning ("Optional column not found: " ++ col) none none none)
    r1.1
  (ctx2, r1.2)

/-- Python repr of a list of strings, for the missing-columns message. -/
def pyStrListRepr (l : List String) : String :=
  "[" ++ sIntercalate ", " (l.map (fun c => sq ++ c ++ sq)) ++ "]"

/-- `df[col] = None`: append a null-filled column in place. -/
def addNullColumn (t : Table) (c : String) : Table :=
  { cols := t.cols ++ [c], rows := t.rows.map (fun p => (p.1, rowSet p.2 c .null)) }

/-- `df[output_columns].copy()`: the declared columns in declared order. -/
def selectColumns (t : Table) (ocs : List String) : Table :=
  { cols := ocs
    rows := t.rows.map (fun p => (p.1, ocs.map (fun c => (c, cellGet p.2 c)))) }

/-- `PipelineEngine._order_output_columns`: missing declared columns are
recorded as one ERROR and null-filled in place, then the frame is
restricted to the declared columns in order (the `KeyError` fallback is
unreachable after the fill). -/
def orderOutputColumns (ctx : ProcessingContext) (t : Table)
    (brand : BrandConfig) : ProcessingContext × Table :=
  let output_columns := brand.output_columns
  let missing := output_columns.filter (fun c => !decide (c ∈ t.cols))
  let ctx :=
    if missing = [] then ctx
    else ctx.add_error ("Missing output columns: " ++ pyStrListRepr missing)
      none none none .error
  let t := missing.foldl addNullColumn t
  (ctx, selectColumns t output_columns)

/-- `PipelineEngine.process`.  The triple's last component is the state
of the caller's frame when the call returns: the code only reads the
caller's frame (`len`, the schema check, and as the source of `.copy()`);
every in-place write of the run (the aggregate step's coercion, the
null-fill of missing output columns) is threaded on the working copy
through `executeStep`'s middle component, so the caller's frame comes
back unchanged on every return path. -/
def PipelineEngine.process (g : GlobalConfig) (df : Table)
    (brand : BrandConfig) : Option Table × ProcessingResult × Table :=
  let input_rows := df.rows.length
  let ctx := initContext g brand
  let vs := validateSchema ctx df brand
  if vs.2 ≠ [] then
    (none, vs.1.get_result input_rows 0 false, df)
  else
    let current := tableCopy df
    match runPipeline vs.1 current brand.pipeline with
    | .abortedCritical ctxA => (none, ctxA.get_result input_rows 0 false, df)
    | .emptyStop ctxE _ => (none, ctxE.get_result input_rows 0 true, df)
    | .completed ctxC last =>
      let oo := orderOutputColumns ctxC last brand
      (some oo.2, oo.1.get_result input_rows oo.2.rows.length true, df)

/-!  ## Spec-side definitions and claim-level characterizations  -/

/-- Follows the spec's words (for comparison with the code's evaluator):
the restricted evaluator "accepts only expressions built from numbers,
the operators + - * /, and parentheses"; an expression containing any
other token must be rejected.  This is the token-level acceptance test
such an evaluator implies. -/
def specRestrictedAccepts (s : String) : Bool :=
  s.toList.all (fun c =>
    c.isDigit ∨ c = '.' ∨ c = '+' ∨ c = '-' ∨ c = '*' ∨ c = '/' ∨
    c = '(' ∨ c = ')' ∨ c.isWhitespace)

/-- The evaluation context the k-th mapping of a transform step sees for
one row, characterized positionally: the original row overlaid, in
declared order, with the values computed for the fields at positions
before k. -/
def chainedRow (g : GlobalConfig) (row : Row)
    (ms : List (String × FieldMapping)) (ri : Int) : Nat → Row
  | 0 => row
  | k+1 =>
    let prev := chainedRow g row ms ri k
    match ms.get? k with
    | some fm => rowSet prev fm.1 (outcomeVal (transformValue g prev fm.2 ri).2)
    | none => prev

/-!  ## Concrete instances used by witnesses and counterexamples  -/

/-- A brand whose single transform step produces column "A" while the
brand declares output columns "A" and "B": the run completes, "B" is
null-filled and an ERROR is recorded. -/
def exBrand : BrandConfig :=
  { brand := ⟨"b1"⟩
    pipeline := [.transform ⟨[("A", { type := .static, value := .str "x" })]⟩]
    output_columns := ["A", "B"] }

/-- One-row input frame for `exBrand`. -/
def df1 : Table := ⟨["c"], [(0, [("c", .str "v")])]⟩

/-- A reference context over the default global config. -/
def ctx0 : ProcessingContext := initContext defaultGlobalConfig exBrand

/-- A brand whose single filter matches nothing: benign zero-row stop. -/
def brand8 : BrandConfig :=
  { brand := ⟨"b8"⟩
    pipeline := [.filter ⟨.all_of,
      [{ column := "s", operator := .equals, value := .val (.str "Z")
         case_sensitive := true }]⟩] }

/-- One-row input frame with column "s". -/
def df8 : Table := ⟨["s"], [(0, [("s", .str "a")])]⟩

/-- The context state at the zero-row stop of `brand8` on `df8`. -/
def ctxE8 : ProcessingContext :=
  { global_config := defaultGlobalConfig
    brand_config := brand8
    current_row := 0
    errors := []
    warnings := [{ row_index := 0, column := none
                   message := "Step " ++ sq ++ "filter" ++ sq ++ " produced no output rows"
                   severity := .warning, original_value := none }]
    quarantined_rows := []
    step_results := [{ step_name := "filter", input_rows := 1, output_rows := 0
                       filtered_rows := 1 }] }

/-- A brand whose filter records an ERROR (missing column, no skip flag)
and then filters out every row: zero-row stop with a non-critical error
in the ledger. -/
def brand8x : BrandConfig :=
  { brand := ⟨"b8x"⟩
    pipeline := [.filter ⟨.all_of,
      [{ column := "X", operator := .equals, value := .val (.str "q") },
       { column := "s", operator := .equals, value := .val (.str "ZZZ") }]⟩] }

/-- Two transform mappings: a static field "a" = 5, then a formula field
"b" = `{a} * 2`; the input row carries a column "a" = 100, so the formula
reads 10.0 from the materialized "a", not 200.0 from the raw input. -/
def msW : List (String × FieldMapping) :=
  [("a", { type := .static, value := .intv 5 }),
   ("b", { type := .formula, formula := some ⟨"{a} * 2", true⟩ })]

/-- Validate config requiring a field "x". -/
def cfg4 : ValidateConfig := { required_fields := ["x"] }

/-- One-row frame without column "x". -/
def t4 : Table := ⟨["a"], [(0, [("a", .str "v")])]⟩

/-- One-row frame whose required column "x" is present but blank. -/
def tOk : Table := ⟨["x"], [(0, [("x", .str "")])]⟩

/-- Aggregate config grouping by a column "g". -/
def cfg7 : AggregateConfig := ⟨"g", [("total", ⟨"amt", .sum, true, ", "⟩)]⟩

/-- One-row frame without the group-by column "g". -/
def t7 : Table := ⟨["a"], [(0, [("a", .intv 1)])]⟩

/-- A frame whose string column "amt" is numerically coerced in place by
an aggregate step. -/
def tMut : Table := ⟨["g", "amt"], [(0, [("g", .str "k"), ("amt", .str "5")])]⟩

/-- Aggregate config with `coerce_numeric` on the "amt" source. -/
def cfgMut : AggregateConfig := ⟨"g", [("total", ⟨"amt", .sum, true, ", "⟩)]⟩

/-- Filter config keeping rows with "s" equal to "Z" (case sensitive). -/
def cfg10 : FilterConfig :=
  ⟨.all_of, [{ column := "s", operator := .equals, value := .val (.str "Z")
               case_sensitive := true }]⟩

/-- Two-row frame for the filter witness. -/
def t10 : Table := ⟨["s"], [(0, [("s", .str "a")]), (1, [("s", .str "Z")])]⟩

/-- Frame with column "A" only, for the output-ordering witness. -/
def tA : Table := ⟨["A"], [(0, [("A", .str "x")])]⟩

/-!  ## Theorems  -/

/-- Claim C2: the spec requires every post-substitution formula text
containing a non-arithmetic token (here a method call on a literal) to be
rejected by a restricted evaluator.  The code's substitution pipeline
passes the text `(1).bit_length()` through unchanged and hands it
directly to Python `eval` with no token check (`formulaEvalInput` is that
hand-off text); the spec's evaluator must reject it.  Python's `eval`
with empty `__builtins__` does evaluate the call (to 2) — grammar is not
restricted by emptying the globals — so the code violates the claim. -/
theorem c2_formula_eval_unrestricted :
    formulaEvalInput [] { expression := "(1).bit_length()", coerce_numeric := true } =
      some "(1).bit_length()" ∧
    specRestrictedAccepts "(1).bit_length()" = false := by
  exact ⟨by decide, by decide⟩

/-- Claim C5: `validate_type_config` accepts a declared `lookup`,
`formula`, `phone`, `date`, `currency_convert`, `tax_exclude`, `clean`
or `conditional` mapping whose variant sub-config is absent — the raise
is reachable only for `direct` without `source_column` — contradicting
the claim that every variant is checked at config-load time. -/
theorem c5_validator_gap :
    exceptOk (FieldMapping.validate_type_config { type := .lookup }) = true ∧
    exceptOk (FieldMapping.validate_type_config { type := .formula }) = true ∧
    exceptOk (FieldMapping.validate_type_config { type := .phone }) = true ∧
    exceptOk (FieldMapping.validate_type_config { type := .date }) = true ∧
    exceptOk (FieldMapping.validate_type_config { type := .currency_convert }) = true ∧
    exceptOk (FieldMapping.validate_type_config { type := .tax_exclude }) = true ∧
    exceptOk (FieldMapping.validate_type_config { type := .clean }) = true ∧
    exceptOk (FieldMapping.validate_type_config { type := .conditional }) = true ∧
    exceptOk (FieldMapping.validate_type_config { type := .direct }) = false := by
  decide

/-- Claim C7: an aggregate step whose group-by column is absent returns
its input table unchanged (both as the handed frame's state and as the
step's result), appends exactly one ERROR-severity entry to the error
ledger, leaves the warning ledger unchanged, and raises nothing (the
modelled execution is total and takes the guarded return branch). -/
theorem c7_aggregate_missing_group_by (ctx : ProcessingContext) (t : Table)
    (cfg : AggregateConfig) (h : cfg.group_by ∉ t.cols) :
    (AggregateStep.execute ctx t cfg).2.1 = t ∧
    (AggregateStep.execute ctx t cfg).2.2 = t ∧
    (AggregateStep.execute ctx t cfg).1.errors =
      ctx.errors ++ [{ row_index := ctx.current_row, column := none
                       message := "Group by column " ++ sq ++ cfg.group_by ++ sq ++ " not found"
                       severity := .error, original_value := none }] ∧
    (AggregateStep.execute ctx t cfg).1.warnings = ctx.warnings := by
  unfold AggregateStep.execute
  rw [if_neg h]
  refine ⟨rfl, rfl, ?_, ?_⟩ <;>
    simp [ProcessingContext.add_error]

/-- Witness for C7 at a concrete frame lacking its group-by column. -/
theorem c7_aggregate_missing_group_by_witness :
    (cfg7.group_by ∉ t7.cols) ∧ (AggregateStep.execute ctx0 t7 cfg7).2.2 = t7 := by
  exact ⟨by decide, (c7_aggregate_missing_group_by ctx0 t7 cfg7 (by decide)).2.1⟩

/-- A masked row selection is a subsequence of the input rows. -/
theorem applyMask_sublist (rows : List (Nat × Row)) :
    ∀ mask, (applyMask rows mask).Sublist rows := by
  induction rows with
  | nil => intro mask; cases mask <;> simp [applyMask]
  | cons r rs ih =>
    intro mask
    cases mask with
    | nil => simp [applyMask]
    | cons b bs =>
      cases b with
      | false => simpa [applyMask] using (ih bs).cons r
      | true => simpa [applyMask] using (ih bs).cons₂ r

/-- Claim C10: whenever the filter step returns a frame (it can also
raise, e.g. on an unparsable numeric operand), that frame keeps the input
columns and its rows are a subsequence of the input rows: every output
row occurs in the input with identical label and cell values, none is
created or duplicated, and relative order is preserved. -/
theorem c10_filter_subsequence (ctx : ProcessingContext) (t : Table)
    (cfg : FilterConfig) (out : Table)
    (h : (FilterStep.execute ctx t cfg).2 = .ok out) :
    out.cols = t.cols ∧ out.rows.Sublist t.rows := by
  unfold FilterStep.execute at h
  by_cases hc : cfg.conditions = []
  · rw [if_pos hc] at h
    injection h with h
    subst h
    exact ⟨rfl, List.Sublist.refl _⟩
  · rw [if_neg hc] at h
    split at h
    · exact absurd h (by simp)
    · injection h with h
      subst h
      exact ⟨rfl, List.Sublist.refl _⟩
    · injection h with h
      subst h
      exact ⟨rfl, applyMask_sublist _ _⟩

/-- Witness for C10: a two-row frame filtered to its second row. -/
theorem c10_filter_subsequence_witness :
    (FilterStep.execute ctx0 t10 cfg10).2 = .ok ⟨["s"], [(1, [("s", .str "Z")])]⟩ ∧
    (⟨["s"], [(1, [("s", .str "Z")])]⟩ : Table).rows.Sublist t10.rows := by
  exact ⟨rfl,
    (c10_filter_subsequence ctx0 t10 cfg10 ⟨["s"], [(1, [("s", .str "Z")])]⟩ rfl).2⟩

/-- The aggregate step's numeric coercion does write to the frame it is
handed (demonstrating that the model expresses in-place writes): on a
string amount column the handed frame comes back changed. -/
theorem aggregate_coerces_handed_frame :
    (AggregateStep.execute ctx0 tMut cfgMut).2.1 ≠ tMut := by
  decide

/-- Claim C9: `process` never mutates the caller's frame.  The model
threads every in-place frame write explicitly (see
`aggregate_coerces_handed_frame`), and on each of the four return paths —
schema abort, CRITICAL abort, zero-row stop, completion — the caller's
frame comes back exactly as passed: the run works on the copy made
before the step loop. -/
theorem c9_no_caller_mutation (g : GlobalConfig) (df : Table)
    (brand : BrandConfig) :
    (PipelineEngine.process g df brand).2.2 = df := by
  simp only [PipelineEngine.process]
  split
  · rfl
  · split <;> rfl

/-- Claim C1 (amended): on a run that executes all steps to completion
(`process` returns an output frame), the returned success flag equals the
error ledger being empty — WARNING entries never affect it, and any
recorded non-critical ERROR entry by itself forces `success = false`. -/
theorem c1_amended (g : GlobalConfig) (df : Table) (brand : BrandConfig)
    (out : Table) (res : ProcessingResult) (fin : Table)
    (h : PipelineEngine.process g df brand = (some out, res, fin)) :
    res.success = res.errors.isEmpty := by
  simp only [PipelineEngine.process] at h
  split at h
  · simp at h
  · split at h
    · simp at h
    · simp at h
    · rw [Prod.mk.injEq, Prod.mk.injEq] at h
      obtain ⟨-, h2, -⟩ := h
      rw [← h2]
      simp [ProcessingContext.get_result]

/-- Counterexample to C1 as stated: a run that completes all steps and
returns an output frame, whose only recorded entries are non-critical
(one ERROR for a missing output column), still comes back with
`success = false`. -/
theorem c1_counterexample :
    (PipelineEngine.process defaultGlobalConfig df1 exBrand).1.isSome = true ∧
    (PipelineEngine.process defaultGlobalConfig df1 exBrand).2.1.success = false ∧
    ((PipelineEngine.process defaultGlobalConfig df1 exBrand).2.1.errors.all
      (fun e => decide (e.severity ≠ ErrorSeverity.critical))) = true := by
  exact ⟨rfl, rfl, rfl⟩

/-- Witness for the amended C1 at a completing concrete run. -/
theorem c1_amended_witness :
    (PipelineEngine.process defaultGlobalConfig df1 exBrand).2.1.success =
      (PipelineEngine.process defaultGlobalConfig df1 exBrand).2.1.errors.isEmpty := by
  exact c1_amended defaultGlobalConfig df1 exBrand _ _ _ rfl

/-- `add_warning` appends an entry carrying exactly its message. -/
theorem add_warning_mem (ctx : ProcessingContext) (m : String)
    (c : Option String) (o : Option Value) (r : Option Int) :
    ∃ w ∈ (ctx.add_warning m c o r).warnings, w.message = m := by
  refine ⟨⟨r.getD ctx.current_row, c, m, .warning, o⟩, ?_, rfl⟩
  simp [ProcessingContext.add_warning, ProcessingContext.add_error]

/-- A zero-row stop always carries the engine's "produced no output rows"
warning for the stopping step. -/
theorem runPipeline_emptyStop_warning :
    ∀ (steps : List StepConfig) (ctx : ProcessingContext) (cur : Table)
      (ctxE : ProcessingContext) (nm : String),
      runPipeline ctx cur steps = .emptyStop ctxE nm →
      ∃ w ∈ ctxE.warnings,
        w.message = "Step " ++ sq ++ nm ++ sq ++ " produced no output rows" := by
  intro steps
  induction steps with
  | nil =>
    intro ctx cur ctxE nm h
    exact absurd h (by simp [runPipeline])
  | cons sc rest ih =>
    intro ctx cur ctxE nm h
    simp only [runPipeline] at h
    split at h
    · simp at h
    · split at h
      · rw [RunOutcome.emptyStop.injEq] at h
        obtain ⟨h1, h2⟩ := h
        subst h2
        rw [← h1]
        exact add_warning_mem _ _ _ _ _
      · exact ih _ _ _ _ h

/-- Claim C8 (amended): whenever a step of the pipeline yields zero rows,
the run stops early with output `none`, the "produced no output rows"
WARNING recorded for that step, and a success flag equal to the error
ledger being empty at that point — so a step filtering out every row is
itself benign, but a recorded ERROR elsewhere in the run still flips
success to false. -/
theorem c8_amended (g : GlobalConfig) (df : Table) (brand : BrandConfig)
    (ctxE : ProcessingContext) (nm : String)
    (hs : (validateSchema (initContext g brand) df brand).2 = [])
    (hr : runPipeline (validateSchema (initContext g brand) df brand).1
      (tableCopy df) brand.pipeline = .emptyStop ctxE nm) :
    (PipelineEngine.process g df brand).1 = none ∧
    (PipelineEngine.process g df brand).2.1.success = ctxE.errors.isEmpty ∧
    ∃ w ∈ (PipelineEngine.process g df brand).2.1.warnings,
      w.message = "Step " ++ sq ++ nm ++ sq ++ " produced no output rows" := by
  have hproc : PipelineEngine.process g df brand =
      (none, ctxE.get_result df.rows.length 0 true, df) := by
    simp only [PipelineEngine.process]
    rw [if_neg (by simp [hs]), hr]
  rw [hproc]
  refine ⟨rfl, ?_, ?_⟩
  · simp [ProcessingContext.get_result]
  · have hw := runPipeline_emptyStop_warning brand.pipeline _ _ _ _ hr
    simpa [ProcessingContext.get_result] using hw

/-- Counterexample to C8 as stated: a run whose filter step records a
non-critical ERROR (missing column, no skip flag) and then filters out
every row terminates with output `none` and the zero-row WARNING, but
`success = false`, not true. -/
theorem c8_counterexample :
    (PipelineEngine.process defaultGlobalConfig df8 brand8x).1 = none ∧
    (PipelineEngine.process defaultGlobalConfig df8 brand8x).2.1.success = false ∧
    ((PipelineEngine.process defaultGlobalConfig df8 brand8x).2.1.warnings.any
      (fun w => w.message ==
        "Step " ++ sq ++ "filter" ++ sq ++ " produced no output rows")) = true := by
  exact ⟨rfl, rfl, rfl⟩

/-- Witness for the amended C8 at an error-free zero-row run. -/
theorem c8_amended_witness :
    (PipelineEngine.process defaultGlobalConfig df8 brand8).1 = none ∧
    (PipelineEngine.process defaultGlobalConfig df8 brand8).2.1.success = true := by
  have h := c8_amended defaultGlobalConfig df8 brand8 ctxE8 "filter" rfl rfl
  refine ⟨h.1, ?_⟩
  rw [h.2.1]
  rfl

/-- The (field, value) pairs a transform row produces do not depend on
the threaded context (the context only accumulates warnings). -/
theorem transformRowGo_outputs_ctx (g : GlobalConfig) (ri : Int) :
    ∀ (ms : List (String × FieldMapping)) (row : Row)
      (ctx ctx' : ProcessingContext),
      (transformRowGo g ctx row ms ri).2.2 = (transformRowGo g ctx' row ms ri).2.2 := by
  intro ms
  induction ms with
  | nil => intro row ctx ctx'; rfl
  | cons fm rest ih =>
    intro row ctx ctx'
    obtain ⟨f, m⟩ := fm
    simp only [transformRowGo]
    cases hwo : (transformValue g row m ri).2 with
    | ok v => simpa using ih _ _ _
    | raised msg => simpa using ih _ _ _

/-- Unfolding one mapping of the per-row loop: the head field gets the
transformer's value on the current extended row, and the tail runs on
that row extended with it. -/
theorem transformRowGo_outputs_cons (g : GlobalConfig)
    (ctx : ProcessingContext) (row : Row) (f : String) (m : FieldMapping)
    (rest : List (String × FieldMapping)) (ri : Int) :
    (transformRowGo g ctx row ((f, m) :: rest) ri).2.2 =
      (f, outcomeVal (transformValue g row m ri).2) ::
      (transformRowGo g ctx
        (rowSet row f (outcomeVal (transformValue g row m ri).2)) rest ri).2.2 := by
  simp only [transformRowGo]
  cases hwo : (transformValue g row m ri).2 with
  | ok v =>
    simpa [outcomeVal] using transformRowGo_outputs_ctx g ri rest _ _ ctx
  | raised msg =>
    simpa [outcomeVal] using transformRowGo_outputs_ctx g ri rest _ _ ctx

/-- One-layer unfolding of `chainedRow` at a successor index. -/
theorem chainedRow_succ (g : GlobalConfig) (row : Row)
    (ms : List (String × FieldMapping)) (ri : Int) (k : Nat) :
    chainedRow g row ms ri (k + 1) =
      match ms.get? k with
      | some fm =>
        rowSet (chainedRow g row ms ri k) fm.1
          (outcomeVal (transformValue g (chainedRow g row ms ri k) fm.2 ri).2)
      | none => chainedRow g row ms ri k := rfl

/-- One step of the positional context characterization. -/
theorem chainedRow_cons (g : GlobalConfig) (row : Row) (f : String)
    (m : FieldMapping) (rest : List (String × FieldMapping)) (ri : Int) :
    ∀ k, chainedRow g row ((f, m) :: rest) ri (k + 1) =
      chainedRow g (rowSet row f (outcomeVal (transformValue g row m ri).2))
        rest ri k := by
  intro k
  induction k with
  | zero => simp [chainedRow]
  | succ k ih =>
    rw [chainedRow_succ, ih, List.get?_cons_succ, chainedRow_succ]

/-- Claim C3: in a transform step, the k-th declared mapping of a row is
evaluated against `chainedRow … k` — the original row overlaid with every
output field already computed at earlier positions for that same row —
and its output pair carries the k-th declared field name with exactly
that value.  In particular a formula mapping referencing an earlier
output field reads the materialized computed value, not the raw input
column. -/
theorem c3_intra_row_chaining (g : GlobalConfig) (ctx : ProcessingContext)
    (row : Row) (ms : List (String × FieldMapping)) (ri : Int) (k : Nat)
    (h : k < ms.length) :
    (transformRowGo g ctx row ms ri).2.2.get? k =
      some ((ms.get ⟨k, h⟩).1,
        outcomeVal (transformValue g (chainedRow g row ms ri k)
          (ms.get ⟨k, h⟩).2 ri).2) := by
  induction ms generalizing row k with
  | nil => exact absurd h (by simp)
  | cons fm rest ih =>
    obtain ⟨f, m⟩ := fm
    rw [transformRowGo_outputs_cons]
    cases k with
    | zero => simp [chainedRow]
    | succ k =>
      have hk : k < rest.length := by simpa using h
      rw [List.get?_cons_succ, chainedRow_cons]
      exact ih _ _ hk

/-- Witness for C3: with mappings `a := static 5` then `b := {a} * 2` on
an input row whose raw column "a" is 100, the formula reads the
materialized 5 and yields 10.0 (not 200.0). -/
theorem c3_intra_row_chaining_witness :
    (transformRowGo defaultGlobalConfig ctx0 [("a", Value.intv 100)] msW 0).2.2.get? 1 =
      some ("b", Value.fl ⟨10, 1⟩) := by
  rw [c3_intra_row_chaining defaultGlobalConfig ctx0 [("a", Value.intv 100)] msW 0 1
    (by decide)]
  rfl

/-- `add_warning` leaves the error ledger untouched. -/
theorem add_warning_errors (ctx : ProcessingContext) (m : String)
    (c : Option String) (o : Option Value) (r : Option Int) :
    (ctx.add_warning m c o r).errors = ctx.errors := by
  simp [ProcessingContext.add_warning, ProcessingContext.add_error]

/-- `add_warning` leaves the quarantine set untouched. -/
theorem add_warning_quarantined (ctx : ProcessingContext) (m : String)
    (c : Option String) (o : Option Value) (r : Option Int) :
    (ctx.add_warning m c o r).quarantined_rows = ctx.quarantined_rows := by
  simp [ProcessingContext.add_warning, ProcessingContext.add_error]

/-- Recording an ERROR appends exactly that entry to the error ledger. -/
theorem add_error_error_errors (ctx : ProcessingContext) (m : String)
    (c : Option String) (o : Option Value) (r : Option Int) :
    (ctx.add_error m c o r .error).errors =
      ctx.errors ++ [⟨r.getD ctx.current_row, c, m, .error, o⟩] := by
  simp [ProcessingContext.add_error]

/-- `add_error` never touches the quarantine set. -/
theorem add_error_quarantined (ctx : ProcessingContext) (m : String)
    (c : Option String) (o : Option Value) (r : Option Int)
    (s : ErrorSeverity) :
    (ctx.add_error m c o r s).quarantined_rows = ctx.quarantined_rows := by
  unfold ProcessingContext.add_error
  split <;> rfl

/-- Quarantining a row leaves the error ledger untouched. -/
theorem quarantine_row_errors (ctx : ProcessingContext) (i : Nat)
    (reason : String) :
    (ctx.quarantine_row i reason).errors = ctx.errors := by
  simp [ProcessingContext.quarantine_row, ProcessingContext.add_error]

/-- Quarantining a row records it in the quarantine set. -/
theorem quarantine_row_mem (ctx : ProcessingContext) (i : Nat)
    (reason : String) :
    i ∈ (ctx.quarantine_row i reason).quarantined_rows := by
  simp only [ProcessingContext.quarantine_row]
  rw [add_error_quarantined]
  by_cases hi : i ∈ ctx.quarantined_rows
  · simp [hi]
  · simp [hi]

/-- Quarantining preserves earlier quarantine members. -/
theorem quarantine_row_mono (ctx : ProcessingContext) (i x : Nat)
    (reason : String) (hx : x ∈ ctx.quarantined_rows) :
    x ∈ (ctx.quarantine_row i reason).quarantined_rows := by
  simp only [ProcessingContext.quarantine_row]
  rw [add_error_quarantined]
  by_cases hi : i ∈ ctx.quarantined_rows
  · simpa [hi] using hx
  · simp [hi, hx]

/-- The required-field loop only appends to the error ledger. -/
theorem checkRequired_errors_extend (cols : List String) :
    ∀ (fs : List String) (ctx : ProcessingContext) (ri : Int) (r : Row),
      ∃ l, (checkRequired cols ctx ri r fs).1.errors = ctx.errors ++ l := by
  intro fs
  induction fs with
  | nil => intro ctx ri r; exact ⟨[], by simp [checkRequired]⟩
  | cons f rest ih =>
    intro ctx ri r
    simp only [checkRequired]
    split
    · split
      · obtain ⟨l, hl⟩ := ih _ ri r
        exact ⟨l, by rw [hl, add_warning_errors]⟩
      · exact ih _ ri r
    · obtain ⟨l, hl⟩ := ih (ctx.add_error
        ("Required field " ++ sq ++ f ++ sq ++ " missing") (some f) none
        (some ri) .error) ri r
      refine ⟨⟨ri, some f, "Required field " ++ sq ++ f ++ sq ++ " missing",
        .error, none⟩ :: l, ?_⟩
      rw [hl, add_error_error_errors]
      simp

/-- The required-field loop never touches the quarantine set. -/
theorem checkRequired_quarantined (cols : List String) :
    ∀ (fs : List String) (ctx : ProcessingContext) (ri : Int) (r : Row),
      (checkRequired cols ctx ri r fs).1.quarantined_rows =
        ctx.quarantined_rows := by
  intro fs
  induction fs with
  | nil => intro ctx ri r; simp [checkRequired]
  | cons f rest ih =>
    intro ctx ri r
    simp only [checkRequired]
    split
    · split
      · rw [ih, add_warning_quarantined]
      · rw [ih]
    · rw [ih, add_error_quarantined]

/-- The type-check loop records warnings only: the error ledger and the
quarantine set pass through unchanged. -/
theorem checkTypes_frame (cols : List String) :
    ∀ (l : List (String × String)) (ctx : ProcessingContext) (ri : Int)
      (r : Row),
      (checkTypes cols ctx ri r l).errors = ctx.errors ∧
      (checkTypes cols ctx ri r l).quarantined_rows = ctx.quarantined_rows := by
  intro l
  induction l with
  | nil => intro ctx ri r; exact ⟨rfl, rfl⟩
  | cons p rest ih =>
    intro ctx ri r
    obtain ⟨f, ty⟩ := p
    simp only [checkTypes]
    split
    · split
      · obtain ⟨h1, h2⟩ := ih _ ri r
        exact ⟨by rw [h1, add_warning_errors], by rw [h2, add_warning_quarantined]⟩
      · exact ih _ ri r
    · exact ih _ ri r

/-- With every required field present, the loop validates the row and
leaves the error ledger unchanged (empties only warn). -/
theorem checkRequired_all_present (cols : List String) :
    ∀ (fs : List String) (ctx : ProcessingContext) (ri : Int) (r : Row),
      (∀ f ∈ fs, f ∈ cols) →
      (checkRequired cols ctx ri r fs).2 = true ∧
      (checkRequired cols ctx ri r fs).1.errors = ctx.errors := by
  intro fs
  induction fs with
  | nil => intro ctx ri r _; exact ⟨rfl, rfl⟩
  | cons f rest ih =>
    intro ctx ri r hall
    have hf : f ∈ cols := hall f (by simp)
    have hrest : ∀ x ∈ rest, x ∈ cols := fun x hx => hall x (by simp [hx])
    simp only [checkRequired, if_pos hf]
    split
    · obtain ⟨h1, h2⟩ := ih _ ri r hrest
      exact ⟨h1, by rw [h2, add_warning_errors]⟩
    · exact ih _ ri r hrest

/-- With some required field absent, the loop invalidates the row and
records an ERROR entry for it. -/
theorem checkRequired_missing (cols : List String) :
    ∀ (fs : List String) (ctx : ProcessingContext) (ri : Int) (r : Row),
      (∃ f ∈ fs, f ∉ cols) →
      (checkRequired cols ctx ri r fs).2 = false ∧
      ∃ e ∈ (checkRequired cols ctx ri r fs).1.errors,
        e.row_index = ri ∧ e.severity = .error := by
  intro fs
  induction fs with
  | nil => intro ctx ri r h; exact absurd h (by simp)
  | cons f rest ih =>
    intro ctx ri r hex
    by_cases hf : f ∈ cols
    · have hrest : ∃ x ∈ rest, x ∉ cols := by
        obtain ⟨x, hx, hnx⟩ := hex
        rcases List.mem_cons.mp hx with rfl | hx'
        · exact absurd hf hnx
        · exact ⟨x, hx', hnx⟩
      simp only [checkRequired, if_pos hf]
      split
      · exact ih _ ri r hrest
      · exact ih _ ri r hrest
    · refine ⟨?_, ?_⟩
      · simp [checkRequired, if_neg hf]
      · simp only [checkRequired, if_neg hf]
        obtain ⟨l, hl⟩ := checkRequired_errors_extend cols rest (ctx.add_error
          ("Required field " ++ sq ++ f ++ sq ++ " missing") (some f) none
          (some ri) .error) ri r
        refine ⟨⟨ri, some f, "Required field " ++ sq ++ f ++ sq ++ " missing",
          .error, none⟩, ?_, rfl, rfl⟩
        rw [hl, add_error_error_errors]
        simp

/-- The row loop of the validate step only appends to the error ledger. -/
theorem validateRows_errors_extend (cfg : ValidateConfig) (cols : List String) :
    ∀ (rows : List (Nat × Row)) (ctx : ProcessingContext),
      ∃ l, (validateRows cfg cols ctx rows).1.errors = ctx.errors ++ l := by
  intro rows
  induction rows with
  | nil => intro ctx; exact ⟨[], by simp [validateRows]⟩
  | cons p rest ih =>
    intro ctx
    obtain ⟨idx, r⟩ := p
    simp only [validateRows]
    obtain ⟨l1, hl1⟩ := checkRequired_errors_extend cols cfg.required_fields ctx
      (idx : Int) r
    have ht := checkTypes_frame cols cfg.validate_types
      (checkRequired cols ctx (idx : Int) r cfg.required_fields).1 (idx : Int) r
    split
    · obtain ⟨l2, hl2⟩ := ih _
      exact ⟨l1 ++ l2, by rw [hl2, ht.1, hl1, List.append_assoc]⟩
    · obtain ⟨l2, hl2⟩ := ih _
      refine ⟨l1 ++ l2, ?_⟩
      rw [hl2, quarantine_row_errors, ht.1, hl1, List.append_assoc]

/-- The row loop preserves quarantine membership. -/
theorem validateRows_quarantined_mono (cfg : ValidateConfig)
    (cols : List String) :
    ∀ (rows : List (Nat × Row)) (ctx : ProcessingContext) (x : Nat),
      x ∈ ctx.quarantined_rows →
      x ∈ (validateRows cfg cols ctx rows).1.quarantined_rows := by
  intro rows
  induction rows with
  | nil => intro ctx x hx; simpa [validateRows] using hx
  | cons p rest ih =>
    intro ctx x hx
    obtain ⟨idx, r⟩ := p
    simp only [validateRows]
    have hq := checkRequired_quarantined cols cfg.required_fields ctx (idx : Int) r
    have ht := checkTypes_frame cols cfg.validate_types
      (checkRequired cols ctx (idx : Int) r cfg.required_fields).1 (idx : Int) r
    split
    · exact ih _ x (by rw [ht.2, hq]; exact hx)
    · exact ih _ x (quarantine_row_mono _ idx x _ (by rw [ht.2, hq]; exact hx))

/-- With every required field present, the row loop keeps every row and
leaves the error ledger and quarantine set unchanged. -/
theorem validateRows_all_present (cfg : ValidateConfig) (cols : List String)
    (hall : ∀ f ∈ cfg.required_fields, f ∈ cols) :
    ∀ (rows : List (Nat × Row)) (ctx : ProcessingContext),
      (validateRows cfg cols ctx rows).2 = rows ∧
      (validateRows cfg cols ctx rows).1.errors = ctx.errors ∧
      (validateRows cfg cols ctx rows).1.quarantined_rows =
        ctx.quarantined_rows := by
  intro rows
  induction rows with
  | nil => intro ctx; exact ⟨rfl, rfl, rfl⟩
  | cons p rest ih =>
    intro ctx
    obtain ⟨idx, r⟩ := p
    have hcr := checkRequired_all_present cols cfg.required_fields ctx
      (idx : Int) r hall
    have hcq := checkRequired_quarantined cols cfg.required_fields ctx
      (idx : Int) r
    have ht := checkTypes_frame cols cfg.validate_types
      (checkRequired cols ctx (idx : Int) r cfg.required_fields).1 (idx : Int) r
    simp only [validateRows, hcr.1, Bool.true_or, if_pos]
    obtain ⟨h1, h2, h3⟩ := ih (checkTypes cols
      (checkRequired cols ctx (idx : Int) r cfg.required_fields).1 (idx : Int) r
      cfg.validate_types)
    refine ⟨by rw [h1], ?_, ?_⟩
    · rw [h2, ht.1, hcr.2]
    · rw [h3, ht.2, hcq]

/-- With some required field absent and quarantine on, the row loop
quarantines every row: the output is empty, every input label lands in
the quarantine set, and each row has an ERROR entry recorded. -/
theorem validateRows_missing (cfg : ValidateConfig) (cols : List String)
    (hex : ∃ f ∈ cfg.required_fields, f ∉ cols)
    (hq : cfg.quarantine_invalid = true) :
    ∀ (rows : List (Nat × Row)) (ctx : ProcessingContext),
      (validateRows cfg cols ctx rows).2 = [] ∧
      ∀ p ∈ rows,
        p.1 ∈ (validateRows cfg cols ctx rows).1.quarantined_rows ∧
        ∃ e ∈ (validateRows cfg cols ctx rows).1.errors,
          e.row_index = (p.1 : Int) ∧ e.severity = .error := by
  intro rows
  induction rows with
  | nil => intro ctx; exact ⟨rfl, by simp⟩
  | cons p rest ih =>
    intro ctx
    obtain ⟨idx, r⟩ := p
    have hcr := checkRequired_missing cols cfg.required_fields ctx (idx : Int)
      r hex
    have ht := checkTypes_frame cols cfg.validate_types
      (checkRequired cols ctx (idx : Int) r cfg.required_fields).1 (idx : Int) r
    simp only [validateRows, hcr.1, hq, Bool.not_true, Bool.false_or, if_neg,
      Bool.false_eq_true, not_false_eq_true]
    set ctx1 := (checkTypes cols
      (checkRequired cols ctx (idx : Int) r cfg.required_fields).1 (idx : Int) r
      cfg.validate_types).quarantine_row idx "Failed validation" with hctx1
    obtain ⟨h1, h2⟩ := ih ctx1
    refine ⟨h1, ?_⟩
    intro p hp
    rcases List.mem_cons.mp hp with rfl | hp'
    · constructor
      · exact validateRows_quarantined_mono cfg cols rest ctx1 idx
          (by rw [hctx1]; exact quarantine_row_mem _ _ _)
      · obtain ⟨e, he, he1, he2⟩ := hcr.2
        obtain ⟨l, hl⟩ := validateRows_errors_extend cfg cols rest ctx1
        refine ⟨e, ?_, he1, he2⟩
        rw [hl, hctx1, quarantine_row_errors, ht.1]
        exact List.mem_append_left _ he
    · exact h2 p hp'

/-- Claim C4 (amended): in the validate step, a required field entirely
absent from the frame records an ERROR and marks every row invalid, so
with `quarantine_invalid = true` the rows are quarantined and excluded;
a required field that is present but empty records a WARNING only and
never invalidates — with all required fields present, the step keeps
every row and leaves the error ledger and quarantine set unchanged. -/
theorem c4_amended (ctx : ProcessingContext) (t : Table)
    (cfg : ValidateConfig) :
    ((∀ f ∈ cfg.required_fields, f ∈ t.cols) →
      (ValidateStep.execute ctx t cfg).2 = t ∧
      (ValidateStep.execute ctx t cfg).1.errors = ctx.errors ∧
      (ValidateStep.execute ctx t cfg).1.quarantined_rows =
        ctx.quarantined_rows) ∧
    ((∃ f ∈ cfg.required_fields, f ∉ t.cols) → cfg.quarantine_invalid = true →
      (ValidateStep.execute ctx t cfg).2.rows = [] ∧
      ∀ p ∈ t.rows,
        p.1 ∈ (ValidateStep.execute ctx t cfg).1.quarantined_rows ∧
        ∃ e ∈ (ValidateStep.execute ctx t cfg).1.errors,
          e.row_index = (p.1 : Int) ∧ e.severity = .error) := by
  constructor
  · intro hall
    obtain ⟨h1, h2, h3⟩ := validateRows_all_present cfg t.cols hall t.rows ctx
    refine ⟨?_, h2, h3⟩
    show (⟨t.cols, (validateRows cfg t.cols ctx t.rows).2⟩ : Table) = t
    rw [h1]
  · intro hex hq
    obtain ⟨h1, h2⟩ := validateRows_missing cfg t.cols hex hq t.rows ctx
    exact ⟨h1, h2⟩

/-- Counterexample to C4 as stated: a row whose required field "x" is
entirely absent is quarantined (excluded from output) under
`quarantine_invalid = true`, with the ERROR recorded. -/
theorem c4_counterexample :
    (ValidateStep.execute ctx0 t4 cfg4).2.rows = [] ∧
    (ValidateStep.execute ctx0 t4 cfg4).1.quarantined_rows = [0] ∧
    ((ValidateStep.execute ctx0 t4 cfg4).1.errors.map
      (fun e => e.severity)) = [ErrorSeverity.error] := by
  exact ⟨rfl, rfl, rfl⟩

/-- Witness for the amended C4: both halves at concrete frames — the
present-but-blank required field keeps its row with nothing quarantined,
and the absent required field empties the frame. -/
theorem c4_amended_witness :
    (ValidateStep.execute ctx0 tOk cfg4).2 = tOk ∧
    (ValidateStep.execute ctx0 t4 cfg4).2.rows = [] := by
  refine ⟨((c4_amended ctx0 tOk cfg4).1 (by decide)).1,
    ((c4_amended ctx0 t4 cfg4).2 (by decide) rfl).1⟩

/-- Reading through a Series item assignment: the set key yields the new
value, every other key is untouched. -/
theorem rowGet?_rowSet (r : Row) (c d : String) (v : Value) :
    rowGet? (rowSet r d v) c = if d = c then some v else rowGet? r c := by
  induction r with
  | nil => simp [rowSet, rowGet?]
  | cons kv rest ih =>
    obtain ⟨k, w⟩ := kv
    by_cases hkd : k = d
    · subst hkd
      by_cases hkc : k = c
      · subst hkc
        simp [rowSet, rowGet?]
      · simp [rowSet, rowGet?, hkc]
    · by_cases hkc : k = c
      · subst hkc
        have hdc : ¬ d = k := fun h => hkd h.symm
        simp [rowSet, rowGet?, hkd, hdc]
      · simp [rowSet, rowGet?, hkd, hkc, ih]

/-- Null-filling a list of columns not containing `c` does not change
the value read at `c`. -/
theorem rowGet_foldl_not_mem (c : String) :
    ∀ (ms : List String) (r : Row), c ∉ ms →
      rowGet? (ms.foldl (fun r d => rowSet r d .null) r) c = rowGet? r c := by
  intro ms
  induction ms with
  | nil => intro r _; rfl
  | cons d rest ih =>
    intro r hc
    have hdc : ¬ d = c := fun h => hc (by simp [h])
    have hrest : c ∉ rest := fun h => hc (by simp [h])
    simp only [List.foldl_cons]
    rw [ih _ hrest, rowGet?_rowSet, if_neg hdc]

/-- Null-filling a list of columns containing `c` leaves null at `c`,
whatever the row held before. -/
theorem rowGet_foldl_mem (c : String) :
    ∀ (ms : List String) (r : Row), c ∈ ms →
      rowGet? (ms.foldl (fun r d => rowSet r d .null) r) c = some .null := by
  intro ms
  induction ms with
  | nil => intro r h; exact absurd h (by simp)
  | cons d rest ih =>
    intro r hc
    simp only [List.foldl_cons]
    by_cases hr : c ∈ rest
    · exact ih _ hr
    · have hdc : d = c := by
        rcases List.mem_cons.mp hc with rfl | h
        · rfl
        · exact absurd h hr
      rw [rowGet_foldl_not_mem c rest _ hr, rowGet?_rowSet, if_pos hdc]

/-- Null-filling columns acts row-wise. -/
theorem foldl_addNull_rows :
    ∀ (ms : List String) (t : Table),
      (ms.foldl addNullColumn t).rows =
        t.rows.map (fun p =>
          (p.1, ms.foldl (fun r c => rowSet r c .null) p.2)) := by
  intro ms
  induction ms with
  | nil => intro t; simp
  | cons c rest ih =>
    intro t
    simp only [List.foldl_cons]
    rw [ih]
    simp only [addNullColumn, List.map_map]
    rfl

/-- Reading a selected row: the first binding of a requested column is
its selected cell. -/
theorem rowGet?_map_pairs (f : String → Value) (c : String) :
    ∀ ocs : List String,
      rowGet? (ocs.map (fun d => (d, f d))) c =
        if c ∈ ocs then some (f c) else none := by
  intro ocs
  induction ocs with
  | nil => simp [rowGet?]
  | cons d rest ih =>
    simp only [List.map_cons, rowGet?]
    by_cases hdc : d = c
    · subst hdc
      simp
    · rw [if_neg hdc, ih]
      have hcd : c ≠ d := Ne.symm hdc
      by_cases hcr : c ∈ rest
      · simp [hcr]
      · simp [hcr, List.mem_cons, hcd]

/-- Claim C6: the output-ordering stage returns a frame whose columns are
exactly the brand's declared output columns in declared order; every
declared column absent from the final step's frame reads null in every
output row and one ERROR-severity entry is appended for the missing
columns; and any completed `process` run returns a frame with exactly
the declared columns. -/
theorem c6_output_columns (ctx : ProcessingContext) (t : Table)
    (brand : BrandConfig) :
    (orderOutputColumns ctx t brand).2.cols = brand.output_columns ∧
    (∀ c ∈ brand.output_columns, c ∉ t.cols →
      ∀ p ∈ (orderOutputColumns ctx t brand).2.rows,
        rowGet? p.2 c = some .null) ∧
    ((∃ c ∈ brand.output_columns, c ∉ t.cols) →
      ∃ e, (orderOutputColumns ctx t brand).1.errors = ctx.errors ++ [e] ∧
        e.severity = .error) ∧
    (∀ (g : GlobalConfig) (df out : Table) (res : ProcessingResult)
      (fin : Table),
      PipelineEngine.process g df brand = (some out, res, fin) →
      out.cols = brand.output_columns) := by
  refine ⟨rfl, ?_, ?_, ?_⟩
  · intro c hc hnc p hp
    simp only [orderOutputColumns, selectColumns] at hp
    rw [foldl_addNull_rows] at hp
    rw [List.map_map] at hp
    obtain ⟨q, hq, rfl⟩ := List.mem_map.mp hp
    simp only [Function.comp]
    rw [rowGet?_map_pairs, if_pos hc]
    have hcm : c ∈ brand.output_columns.filter (fun c => !decide (c ∈ t.cols)) :=
      List.mem_filter.mpr ⟨hc, by simp [hnc]⟩
    unfold cellGet
    rw [rowGet_foldl_mem c _ _ hcm]
    rfl
  · intro hex
    obtain ⟨c, hc, hnc⟩ := hex
    have hcm : c ∈ brand.output_columns.filter (fun c => !decide (c ∈ t.cols)) :=
      List.mem_filter.mpr ⟨hc, by simp [hnc]⟩
    have hne : brand.output_columns.filter (fun c => !decide (c ∈ t.cols)) ≠ [] :=
      List.ne_nil_of_mem hcm
    simp only [orderOutputColumns, if_neg hne]
    exact ⟨_, add_error_error_errors _ _ _ _ _, rfl⟩
  · intro g df out res fin h
    simp only [PipelineEngine.process] at h
    split at h
    · simp at h
    · split at h
      · simp at h
      · simp at h
      · rw [Prod.mk.injEq, Prod.mk.injEq] at h
        obtain ⟨h1, -, -⟩ := h
        rw [← Option.some.inj h1]
        rfl

/-- Witness for C6 at a frame lacking declared column "B". -/
theorem c6_output_columns_witness :
    (orderOutputColumns ctx0 tA exBrand).2.cols = ["A", "B"] ∧
    rowGet? [("A", Value.str "x"), ("B", Value.null)] "B" = some Value.null := by
  refine ⟨(c6_output_columns ctx0 tA exBrand).1, ?_⟩
  exact (c6_output_columns ctx0 tA exBrand).2.1 "B" (by decide) (by decide)
    (0, [("A", Value.str "x"), ("B", Value.null)]) (by decide)

end Ecomm
